import Mathlib

/-!
Verification of the event-sourced runtime (quiet-python-poc-3).

This file shallowly embeds the parts of the runtime that the checked
claims are about:

* a JSON value model with Python semantics (dict insertion order,
  truthiness, `==` with bool/int coercion),
* the crypto primitives of `core/crypto.py` (dummy mode exactly as in
  the source; real-mode symmetric encryption models the external PyNaCl
  SecretBox, which is not part of this repository),
* executable SHA-256 and BLAKE2b (the hashes `core/crypto.py` calls via
  `hashlib`),
* the command executor of `core/command.py`,
* the `signed_groups` event-store helper, `add` projector and
  `blocked.process_unblocked` job,
* `core/greedy_decrypt.py`,
* a transactional store modelled from the spec (no store in the
  repository implements `begin_transaction`/`commit`/`rollback`).

Numbers are modelled as integers (the runtime only stores ints and
strings in the places the claims touch).  Bytes are natural numbers
below 256, byte strings are lists of bytes.
-/

/-- JSON-like values as stored by Python: `None`, bools, ints, strings,
lists, and insertion-ordered dicts. -/
inductive Json where
  | null : Json
  | bool : Bool → Json
  | num : Int → Json
  | str : String → Json
  | arr : List Json → Json
  | obj : List (String × Json) → Json

mutual

/-- Structural (Lean-level) equality test on `Json`. -/
def Json.beq : Json → Json → Bool
  | .null, .null => true
  | .bool x, .bool y => x == y
  | .num x, .num y => x == y
  | .str x, .str y => x == y
  | .arr xs, .arr ys => Json.beqList xs ys
  | .obj xs, .obj ys => Json.beqKV xs ys
  | _, _ => false

def Json.beqList : List Json → List Json → Bool
  | [], [] => true
  | x :: xs, y :: ys => Json.beq x y && Json.beqList xs ys
  | _, _ => false

def Json.beqKV : List (String × Json) → List (String × Json) → Bool
  | [], [] => true
  | (k, v) :: xs, (l, w) :: ys => k == l && Json.beq v w && Json.beqKV xs ys
  | _, _ => false

end

theorem Json.beq_iff_aux :
    ∀ n : Nat,
      (∀ a b : Json, sizeOf a ≤ n → (Json.beq a b = true ↔ a = b)) ∧
      (∀ xs ys : List Json, sizeOf xs ≤ n → (Json.beqList xs ys = true ↔ xs = ys)) ∧
      (∀ xs ys : List (String × Json), sizeOf xs ≤ n →
        (Json.beqKV xs ys = true ↔ xs = ys)) := by
  intro n
  induction n with
  | zero =>
    refine ⟨fun a b h => ?_, fun xs ys h => ?_, fun xs ys h => ?_⟩
    · cases a <;> simp at h
    · cases xs <;> simp at h
    · cases xs <;> simp at h
  | succ n ih =>
    obtain ⟨ihj, ihl, ihk⟩ := ih
    refine ⟨fun a b h => ?_, fun xs ys h => ?_, fun xs ys h => ?_⟩
    · cases a <;> cases b <;>
        first
        | (simp [Json.beq]; done)
        | (rename_i xs ys
           simp only [Json.beq, Json.arr.injEq, Json.obj.injEq]
           first
           | exact ihl xs ys (by simp at h; omega)
           | exact ihk xs ys (by simp at h; omega))
    · cases xs <;> cases ys <;>
        first
        | (simp [Json.beqList]; done)
        | (rename_i x xs y ys
           simp only [Json.beqList, Bool.and_eq_true, List.cons.injEq]
           rw [ihj x y (by simp at h; omega), ihl xs ys (by simp at h; omega)])
    · cases xs <;> cases ys <;>
        first
        | (simp [Json.beqKV]; done)
        | (rename_i kv xs lw ys
           obtain ⟨k, v⟩ := kv
           obtain ⟨l, w⟩ := lw
           simp only [Json.beqKV, Bool.and_eq_true, List.cons.injEq, Prod.mk.injEq,
             beq_iff_eq]
           rw [ihj v w (by simp at h; omega), ihk xs ys (by simp at h; omega)])

instance : DecidableEq Json := fun a b =>
  decidable_of_iff _ ((Json.beq_iff_aux (sizeOf a)).1 a b le_rfl)

namespace Json

/-- `d.get(k)` on an insertion-ordered dict (first binding wins; dicts
built by the embedding never have duplicate keys). -/
def lookup : List (String × Json) → String → Option Json
  | [], _ => none
  | (k', v) :: rest, k => if k' = k then some v else lookup rest k

/-- `d[k] = v` with Python dict semantics: an existing key keeps its
position, a new key is appended at the end. -/
def dictSet : List (String × Json) → String → Json → List (String × Json)
  | [], k, v => [(k, v)]
  | (k', v') :: rest, k, v =>
    if k' = k then (k, v) :: rest else (k', v') :: dictSet rest k v

/-- `del d[k]` (callers that need Python's `KeyError` on an absent key
test membership first). -/
def dictDel : List (String × Json) → String → List (String × Json)
  | [], _ => []
  | (k', v) :: rest, k => if k' = k then rest else (k', v) :: dictDel rest k

/-- `k in d`. -/
def dictHas (kvs : List (String × Json)) (k : String) : Bool :=
  (lookup kvs k).isSome

/-- Python truthiness: `None`, `False`, `0`, `""`, `[]`, `{}` are falsy. -/
def pyTruthy : Json → Bool
  | .null => false
  | .bool b => b
  | .num n => n != 0
  | .str s => s != ""
  | .arr xs => !xs.isEmpty
  | .obj kvs => !kvs.isEmpty

mutual

/-- Python `==` on JSON values: bools compare equal to the ints 0/1,
lists compare pointwise, dicts compare as unordered key→value maps
(dicts built by Python never repeat a key). -/
def pyEq : Json → Json → Bool
  | .null, .null => true
  | .bool x, .bool y => x == y
  | .bool x, .num m => (if x then (1 : Int) else 0) == m
  | .num m, .bool x => m == (if x then (1 : Int) else 0)
  | .num x, .num y => x == y
  | .str x, .str y => x == y
  | .arr xs, .arr ys => pyEqList xs ys
  | .obj xs, .obj ys => xs.length == ys.length && pyEqObj xs ys
  | _, _ => false

/-- Pointwise Python `==` on lists. -/
def pyEqList : List Json → List Json → Bool
  | [], [] => true
  | x :: xs, y :: ys => pyEq x y && pyEqList xs ys
  | _, _ => false

/-- Every binding of the first dict is matched by the second. -/
def pyEqObj : List (String × Json) → List (String × Json) → Bool
  | [], _ => true
  | (k, v) :: rest, b =>
    (match lookup b k with
     | some w => pyEq v w
     | none => false) && pyEqObj rest b

end

end Json


/-! ## Bytes, hex and UTF-8

`core/crypto.py` works on Python `bytes` and hex strings.  A byte string
is a `List Nat` with entries below 256. -/

/-- All entries are bytes. -/
def bytesValid (bs : List Nat) : Bool := bs.all (· < 256)

/-- Lowercase hex digit. -/
def hexDig : Nat → Char
  | 0 => '0' | 1 => '1' | 2 => '2' | 3 => '3' | 4 => '4' | 5 => '5'
  | 6 => '6' | 7 => '7' | 8 => '8' | 9 => '9' | 10 => 'a' | 11 => 'b'
  | 12 => 'c' | 13 => 'd' | 14 => 'e' | _ => 'f'

/-- One byte as two lowercase hex digits. -/
def byteToHexChars (b : Nat) : List Char := [hexDig (b / 16), hexDig (b % 16)]

/-- Hex encoding of a byte string (lowercase), as produced by
`hexdigest()` and `nacl.encoding.HexEncoder`. -/
def bytesToHex (bs : List Nat) : String := ⟨(bs.map byteToHexChars).flatten⟩

/-- Value of one hex digit character (upper- or lowercase). -/
def hexDigVal (c : Char) : Option Nat :=
  let n := c.toNat
  if 48 ≤ n ∧ n ≤ 57 then some (n - 48)
  else if 97 ≤ n ∧ n ≤ 102 then some (n - 87)
  else if 65 ≤ n ∧ n ≤ 70 then some (n - 55)
  else none

/-- Hex decoding (`binascii.unhexlify`): fails on odd length or a
non-hex character. -/
def hexCharsToBytes : List Char → Option (List Nat)
  | [] => some []
  | c1 :: c2 :: rest => do
    let h ← hexDigVal c1
    let l ← hexDigVal c2
    let tl ← hexCharsToBytes rest
    pure ((16 * h + l) :: tl)
  | [_] => none

def hexToBytes (s : String) : Option (List Nat) := hexCharsToBytes s.data

/-- UTF-8 encoding of one character (Python `str.encode()`). -/
def utf8EncodeChar (c : Char) : List Nat :=
  let n := c.toNat
  if n < 0x80 then [n]
  else if n < 0x800 then [0xC0 + n / 64, 0x80 + n % 64]
  else if n < 0x10000 then [0xE0 + n / 4096, 0x80 + n / 64 % 64, 0x80 + n % 64]
  else [0xF0 + n / 0x40000, 0x80 + n / 4096 % 64, 0x80 + n / 64 % 64, 0x80 + n % 64]

/-- UTF-8 encoding of a string (Python `str.encode()`). -/
def strBytes (s : String) : List Nat := (s.data.map utf8EncodeChar).flatten

/-- One step of UTF-8 decoding: the character encoded at byte `b`
(with lookahead into `rest`) and the remaining bytes; `none` on
continuation errors, overlong forms, surrogates and values beyond
U+10FFFF. -/
def utf8DecodeOne (b : Nat) (rest : List Nat) : Option (Char × List Nat) :=
  if b < 0x80 then some (Char.ofNat b, rest)
  else if b < 0xC2 then none
  else if b < 0xE0 then
    match rest with
    | c :: rest' =>
      if 0x80 ≤ c ∧ c < 0xC0 then
        some (Char.ofNat ((b - 0xC0) * 64 + (c - 0x80)), rest')
      else none
    | [] => none
  else if b < 0xF0 then
    match rest with
    | c :: d :: rest' =>
      if (if b = 0xE0 then 0xA0 ≤ c ∧ c < 0xC0
          else if b = 0xED then 0x80 ≤ c ∧ c < 0xA0
          else 0x80 ≤ c ∧ c < 0xC0) ∧ 0x80 ≤ d ∧ d < 0xC0 then
        some (Char.ofNat ((b - 0xE0) * 4096 + (c - 0x80) * 64 + (d - 0x80)), rest')
      else none
    | _ => none
  else if b < 0xF5 then
    match rest with
    | c :: d :: e :: rest' =>
      if (if b = 0xF0 then 0x90 ≤ c ∧ c < 0xC0
          else if b = 0xF4 then 0x80 ≤ c ∧ c < 0x90
          else 0x80 ≤ c ∧ c < 0xC0) ∧ 0x80 ≤ d ∧ d < 0xC0 ∧
          0x80 ≤ e ∧ e < 0xC0 then
        some (Char.ofNat ((b - 0xF0) * 0x40000 + (c - 0x80) * 4096 +
          (d - 0x80) * 64 + (e - 0x80)), rest')
      else none
    | _ => none
  else none

/-- Fueled UTF-8 decoding loop (each step consumes at least one byte,
so byte-length fuel always suffices). -/
def utf8DecodeF : Nat → List Nat → Option (List Char)
  | _, [] => some []
  | 0, _ :: _ => none
  | n + 1, b :: rest =>
    match utf8DecodeOne b rest with
    | some (cp, rest') =>
      match utf8DecodeF n rest' with
      | some cs => some (cp :: cs)
      | none => none
    | none => none

/-- UTF-8 decoding (Python `bytes.decode()`). -/
def utf8Decode (bs : List Nat) : Option (List Char) :=
  utf8DecodeF bs.length bs

/-- Whether Python `bytes.decode()` succeeds on the byte string. -/
def utf8Valid (bs : List Nat) : Bool := (utf8Decode bs).isSome

/-- Python `str.startswith(p)` (by code point). -/
def pyStartsWith (s p : String) : Bool := p.data.isPrefixOf s.data

/-- Python slice `s[n:]` (by code point). -/
def pyDrop (s : String) (n : Nat) : String := ⟨s.data.drop n⟩

/-- Python slice `s[:n]` (by code point). -/
def pyTake (s : String) (n : Nat) : String := ⟨s.data.take n⟩

/-! ## SHA-256 (`hashlib.sha256`) -/

namespace SHA256

def M32 : Nat := 2 ^ 32

/-- Right rotation of a 32-bit word. -/
def rotr (r x : Nat) : Nat := x / 2 ^ r + x % 2 ^ r * 2 ^ (32 - r)

def K : List Nat :=
  [1116352408, 1899447441, 3049323471, 3921009573, 961987163, 1508970993,
   2453635748, 2870763221, 3624381080, 310598401, 607225278, 1426881987,
   1925078388, 2162078206, 2614888103, 3248222580, 3835390401, 4022224774,
   264347078, 604807628, 770255983, 1249150122, 1555081692, 1996064986,
   2554220882, 2821834349, 2952996808, 3210313671, 3336571891, 3584528711,
   113926993, 338241895, 666307205, 773529912, 1294757372, 1396182291,
   1695183700, 1986661051, 2177026350, 2456956037, 2730485921, 2820302411,
   3259730800, 3345764771, 3516065817, 3600352804, 4094571909, 275423344,
   430227734, 506948616, 659060556, 883997877, 958139571, 1322822218,
   1537002063, 1747873779, 1955562222, 2024104815, 2227730452, 2361852424,
   2428436474, 2756734187, 3204031479, 3329325298]

def H0 : List Nat :=
  [0x6a09e667, 0xbb67ae85, 0x3c6ef372, 0xa54ff53a,
   0x510e527f, 0x9b05688c, 0x1f83d9ab, 0x5be0cd19]

/-- 64-bit big-endian byte encoding (for the length field). -/
def be64 (n : Nat) : List Nat :=
  [n / 2 ^ 56 % 256, n / 2 ^ 48 % 256, n / 2 ^ 40 % 256, n / 2 ^ 32 % 256,
   n / 2 ^ 24 % 256, n / 2 ^ 16 % 256, n / 2 ^ 8 % 256, n % 256]

/-- Merkle–Damgård padding: `0x80`, zeros, 64-bit bit length. -/
def pad (msg : List Nat) : List Nat :=
  let L := msg.length
  let z := (120 - (L + 1) % 64) % 64
  msg ++ 0x80 :: List.replicate z 0 ++ be64 (8 * L)

/-- Big-endian 32-bit words of a byte string. -/
def toWordsBE : List Nat → List Nat
  | a :: b :: c :: d :: rest =>
    (((a * 256 + b) * 256 + c) * 256 + d) :: toWordsBE rest
  | _ => []

/-- Split a word list into 16-word blocks. -/
def chunk16 : List Nat → List (List Nat)
  | w0 :: w1 :: w2 :: w3 :: w4 :: w5 :: w6 :: w7 ::
    w8 :: w9 :: w10 :: w11 :: w12 :: w13 :: w14 :: w15 :: rest =>
    [w0, w1, w2, w3, w4, w5, w6, w7, w8, w9, w10, w11, w12, w13, w14, w15] ::
      chunk16 rest
  | _ => []

/-- Message schedule: extends 16 words to 64. -/
def schedule (w16 : List Nat) : List Nat :=
  (List.range 48).foldl
    (fun w _ =>
      let n := w.length
      let x := w.getD (n - 15) 0
      let s0 := Nat.xor (Nat.xor (rotr 7 x) (rotr 18 x)) (x / 2 ^ 3)
      let y := w.getD (n - 2) 0
      let s1 := Nat.xor (Nat.xor (rotr 17 y) (rotr 19 y)) (y / 2 ^ 10)
      w ++ [(w.getD (n - 16) 0 + s0 + w.getD (n - 7) 0 + s1) % M32])
    w16

/-- One compression of a 16-word block into the state. -/
def compress (h : List Nat) (block : List Nat) : List Nat :=
  let w := schedule block
  let st := (List.range 64).foldl
    (fun st i =>
      match st with
      | [a, b, c, d, e, f, g, hh] =>
        let s1 := Nat.xor (Nat.xor (rotr 6 e) (rotr 11 e)) (rotr 25 e)
        let ch := Nat.xor (Nat.land e f) (Nat.land (M32 - 1 - e) g)
        let t1 := (hh + s1 + ch + K.getD i 0 + w.getD i 0) % M32
        let s0 := Nat.xor (Nat.xor (rotr 2 a) (rotr 13 a)) (rotr 22 a)
        let mj := Nat.xor (Nat.xor (Nat.land a b) (Nat.land a c)) (Nat.land b c)
        let t2 := (s0 + mj) % M32
        [(t1 + t2) % M32, a, b, c, (d + t1) % M32, e, f, g]
      | other => other)
    h
  List.zipWith (fun x y => (x + y) % M32) h st

/-- 32-bit word to big-endian bytes. -/
def wordToBytesBE (x : Nat) : List Nat :=
  [x / 2 ^ 24 % 256, x / 2 ^ 16 % 256, x / 2 ^ 8 % 256, x % 256]

/-- SHA-256 digest (32 bytes) of a byte string. -/
def digest (msg : List Nat) : List Nat :=
  let blocks := chunk16 (toWordsBE (pad msg))
  ((blocks.foldl compress H0).map wordToBytesBE).flatten

end SHA256

/-- `hashlib.sha256(data).hexdigest()`. -/
def sha256Hex (msg : List Nat) : String := bytesToHex (SHA256.digest msg)

set_option maxRecDepth 10000 in
/-- FIPS 180-4 test vector for the empty message: pins the SHA-256
embedding to the real function. -/
theorem sha256_test_vector_empty :
    sha256Hex [] =
      "e3b0c44298fc1c149afbf4c8996fb92427ae41e4649b934ca495991b7852b855" := by
  decide

set_option maxRecDepth 10000 in
/-- FIPS 180-4 test vector for "abc". -/
theorem sha256_test_vector_abc :
    sha256Hex (strBytes "abc") =
      "ba7816bf8f01cfea414140de5dae2223b00361a396177a9cb410ff61f20015ad" := by
  decide

/-! ## BLAKE2b (`hashlib.blake2b`, RFC 7693), unkeyed, with selectable
digest size (`core/crypto.py` uses 64-byte digests for `hash` and
32-byte digests for key derivation). -/

namespace BLAKE2b

def M64 : Nat := 2 ^ 64

/-- Right rotation of a 64-bit word. -/
def rotr (r x : Nat) : Nat := x / 2 ^ r + x % 2 ^ r * 2 ^ (64 - r)

def IV : List Nat :=
  [0x6a09e667f3bcc908, 0xbb67ae8584caa73b, 0x3c6ef372fe94f82b,
   0xa54ff53a5f1d36f1, 0x510e527fade682d1, 0x9b05688c2b3e6c1f,
   0x1f83d9abfb41bd6b, 0x5be0cd19137e2179]

def SIGMA : List (List Nat) :=
  [[0, 1, 2, 3, 4, 5, 6, 7, 8, 9, 10, 11, 12, 13, 14, 15],
   [14, 10, 4, 8, 9, 15, 13, 6, 1, 12, 0, 2, 11, 7, 5, 3],
   [11, 8, 12, 0, 5, 2, 15, 13, 10, 14, 3, 6, 7, 1, 9, 4],
   [7, 9, 3, 1, 13, 12, 11, 14, 2, 6, 5, 10, 4, 0, 15, 8],
   [9, 0, 5, 7, 2, 4, 10, 15, 14, 1, 11, 12, 6, 8, 3, 13],
   [2, 12, 6, 10, 0, 11, 8, 3, 4, 13, 7, 5, 15, 14, 1, 9],
   [12, 5, 1, 15, 14, 13, 4, 10, 0, 7, 6, 3, 9, 2, 8, 11],
   [13, 11, 7, 14, 12, 1, 3, 9, 5, 0, 15, 4, 8, 6, 2, 10],
   [6, 15, 14, 9, 11, 3, 0, 8, 12, 2, 13, 7, 1, 4, 10, 5],
   [10, 2, 8, 4, 7, 6, 1, 5, 15, 11, 9, 14, 3, 12, 13, 0]]

/-- Little-endian 64-bit words of a byte string. -/
def toWordsLE : List Nat → List Nat
  | b0 :: b1 :: b2 :: b3 :: b4 :: b5 :: b6 :: b7 :: rest =>
    (b0 + 256 * (b1 + 256 * (b2 + 256 * (b3 + 256 * (b4 + 256 *
      (b5 + 256 * (b6 + 256 * b7))))))) :: toWordsLE rest
  | _ => []

/-- The G mixing function acting on the 16-word work vector. -/
def G (v : List Nat) (a b c d x y : Nat) : List Nat :=
  let va := (v.getD a 0 + v.getD b 0 + x) % M64
  let vd := rotr 32 (Nat.xor (v.getD d 0) va)
  let vc := (v.getD c 0 + vd) % M64
  let vb := rotr 24 (Nat.xor (v.getD b 0) vc)
  let va' := (va + vb + y) % M64
  let vd' := rotr 16 (Nat.xor vd va')
  let vc' := (vc + vd') % M64
  let vb' := rotr 63 (Nat.xor vb vc')
  (((v.set a va').set b vb').set c vc').set d vd'

/-- One of the twelve rounds. -/
def round (m : List Nat) (v : List Nat) (r : Nat) : List Nat :=
  let s := SIGMA.getD (r % 10) []
  let mi := fun i => m.getD (s.getD i 0) 0
  let v1 := G v 0 4 8 12 (mi 0) (mi 1)
  let v2 := G v1 1 5 9 13 (mi 2) (mi 3)
  let v3 := G v2 2 6 10 14 (mi 4) (mi 5)
  let v4 := G v3 3 7 11 15 (mi 6) (mi 7)
  let v5 := G v4 0 5 10 15 (mi 8) (mi 9)
  let v6 := G v5 1 6 11 12 (mi 10) (mi 11)
  let v7 := G v6 2 7 8 13 (mi 12) (mi 13)
  G v7 3 4 9 14 (mi 14) (mi 15)

/-- Compression function F (unkeyed message block `m`, byte counter
`t`, finalization flag `f`). -/
def F (h : List Nat) (m : List Nat) (t : Nat) (f : Bool) : List Nat :=
  let v0 := h ++ IV
  let v1 := v0.set 12 (Nat.xor (v0.getD 12 0) (t % M64))
  let v2 := v1.set 13 (Nat.xor (v1.getD 13 0) (t / M64))
  let v3 := if f then v2.set 14 (Nat.xor (v2.getD 14 0) (M64 - 1)) else v2
  let v := (List.range 12).foldl (round m) v3
  (List.range 8).map fun i =>
    Nat.xor (Nat.xor (h.getD i 0) (v.getD i 0)) (v.getD (i + 8) 0)

/-- Split padded bytes into 128-byte blocks as 16-word lists. -/
def blocks (padded : List Nat) : List (List Nat) :=
  SHA256.chunk16 (toWordsLE padded)

/-- Iterate F over the blocks with the RFC 7693 counter sequence. -/
def foldBlocks (ll : Nat) (h : List Nat) : List (List Nat) → Nat → List Nat
  | [], _ => h
  | [last], _ => F h last ll true
  | b :: rest, i => foldBlocks ll (F h b ((i + 1) * 128) false) rest (i + 1)

/-- 64-bit word to little-endian bytes. -/
def wordToBytesLE (x : Nat) : List Nat :=
  [x % 256, x / 2 ^ 8 % 256, x / 2 ^ 16 % 256, x / 2 ^ 24 % 256,
   x / 2 ^ 32 % 256, x / 2 ^ 40 % 256, x / 2 ^ 48 % 256, x / 2 ^ 56 % 256]

/-- Unkeyed BLAKE2b digest of `nn` bytes (1 ≤ nn ≤ 64). -/
def digest (nn : Nat) (msg : List Nat) : List Nat :=
  let ll := msg.length
  let padded :=
    if msg.isEmpty then List.replicate 128 0
    else msg ++ List.replicate ((128 - ll % 128) % 128) 0
  let h0 := IV.set 0 (Nat.xor (IV.getD 0 0) (0x01010000 + nn))
  let h := foldBlocks ll h0 (blocks padded) 0
  ((h.map wordToBytesLE).flatten).take nn

end BLAKE2b

/-- `hashlib.blake2b(data, digest_size=nn).hexdigest()`. -/
def blake2bHex (nn : Nat) (msg : List Nat) : String :=
  bytesToHex (BLAKE2b.digest nn msg)

set_option maxRecDepth 40000 in
/-- RFC 7693–style test vector (empty message, 64-byte digest): pins
the BLAKE2b embedding to the real function. -/
theorem blake2b_test_vector_empty :
    blake2bHex 64 [] =
      "786a02f742015903c6c6fd852552d272912f4740e15847618a86e217f71f5419d25e1031afee585313896444934eb04b903a685b1448b755d56f701afe9be2ce" := by
  decide

set_option maxRecDepth 40000 in
/-- RFC 7693 appendix test vector ("abc", 64-byte digest). -/
theorem blake2b_test_vector_abc :
    blake2bHex 64 (strBytes "abc") =
      "ba80a53f981c4d0d6a2797b69f12f6e94c212f14685ac4b74b12bb6fdbffa2d17d87c5392aab792dc252d5de4533cc9518d38aa8dbf1925ab92386edd4009923" := by
  decide

/-! ## Crypto primitives (`core/crypto.py`) -/

/-- Python exceptions raised by the embedded code paths. -/
inductive PyErr where
  | unicodeDecodeError : PyErr
  | typeError : PyErr
  | keyError : String → PyErr
  | valueError : String → PyErr
  | binasciiError : PyErr
  | attributeError : PyErr
  deriving DecidableEq, Repr

/-- A Python argument that may be a `str` or a `bytes` value
(`core/crypto.py` dispatches on `isinstance(data, str)`). -/
inductive PyData where
  | str : String → PyData
  | bytes : List Nat → PyData
  deriving DecidableEq, Repr

/-- `data.encode()` applied when the argument is a `str`
(`core/crypto.py` lines 59–60 etc.). -/
def PyData.toBytes : PyData → List Nat
  | .str s => strBytes s
  | .bytes b => b

/-- `CRYPTO_MODE`: `"real"` or `"dummy"`. -/
inductive CryptoMode where
  | real : CryptoMode
  | dummy : CryptoMode
  deriving DecidableEq, Repr

/-- `sign(data, private_key)` (`core/crypto.py` lines 50–73).  In dummy
mode the signature is `"dummy_sig_" + sha256(data).hexdigest()[:16]`.
The real branch calls the external PyNaCl Ed25519 signer, injected here
as `edSign`. -/
def sign (mode : CryptoMode) (edSign : List Nat → List Nat → String)
    (data : PyData) (private_key : List Nat) : String :=
  let d := data.toBytes
  match mode with
  | .dummy => "dummy_sig_" ++ pyTake (sha256Hex d) 16
  | .real => edSign private_key d

/-- `verify(data, signature, public_key)` (`core/crypto.py` lines
76–99).  Dummy mode accepts exactly the strings starting with
`"dummy_sig_"`.  The real branch is the external PyNaCl verifier,
injected as `edVerify`. -/
def verify (mode : CryptoMode) (edVerify : List Nat → List Nat → String → Bool)
    (data : PyData) (signature : String) (public_key : List Nat) : Bool :=
  let d := data.toBytes
  match mode with
  | .dummy => pyStartsWith signature "dummy_sig_"
  | .real => edVerify public_key d signature

/-- Result dict of `encrypt`. -/
structure EncResult where
  ciphertext : String
  nonce : String
  algorithm : String
  deriving DecidableEq, Repr

/-- Modelled from the spec: PyNaCl `SecretBox` ("authenticated
symmetric encryption with 24-byte nonces", spec §4.2) is an external
library, not code of this repository.  It is modelled as an
authenticated stream cipher: a keystream derived from `(key, nonce)`
by counter-mode BLAKE2b, and a 16-byte tag that is a BLAKE2b MAC of
`(key, nonce, ciphertext)`, prepended to the ciphertext exactly as the
real `SecretBox` prepends its Poly1305 tag. -/
def secretboxKeystream (key nonce : List Nat) (len : Nat) : List Nat :=
  (((List.range ((len + 63) / 64)).map
    (fun i => BLAKE2b.digest 64 (key ++ nonce ++ BLAKE2b.wordToBytesLE i))).flatten).take len

/-- Modelled from the spec: the 16-byte authenticator of the SecretBox
model (see `secretboxKeystream`). -/
def secretboxTag (key nonce ct : List Nat) : List Nat :=
  BLAKE2b.digest 16 (key ++ nonce ++ ct)

/-- Modelled from the spec: `SecretBox(key).encrypt(data)` with the
given nonce; the message field is `tag ++ xor-stream(data)`. -/
def secretboxCipher (key nonce data : List Nat) : List Nat :=
  let c := List.zipWith Nat.xor data (secretboxKeystream key nonce data.length)
  secretboxTag key nonce c ++ c

/-- Modelled from the spec: `SecretBox(key).decrypt(nonce ++ ct)`;
checks the tag, then strips the keystream.  Returns `none` where the
real box raises (the caller catches every exception). -/
def secretboxOpen (key nonce ct : List Nat) : Option (List Nat) :=
  if 16 ≤ ct.length ∧ ct.take 16 = secretboxTag key nonce (ct.drop 16) then
    some (List.zipWith Nat.xor (ct.drop 16)
      (secretboxKeystream key nonce (ct.drop 16).length))
  else none

/-- Key preparation shared by `encrypt`/`decrypt`: a `str` key is
hex-decoded (raising on malformed hex); a `bytes` key of length ≠ 32 is
replaced by its BLAKE2b-256 digest. -/
def prepareKey : PyData → Except PyErr (List Nat)
  | .str s =>
    match hexToBytes s with
    | some k => .ok k
    | none => .error .binasciiError
  | .bytes k => .ok (if k.length = 32 then k else BLAKE2b.digest 32 k)

/-- `encrypt(data, key)` (`core/crypto.py` lines 102–136).  Dummy mode
returns `"dummy_encrypted_" + data.decode()` (raising
`UnicodeDecodeError` on bytes that are not UTF-8); real mode encrypts
with the SecretBox model under a caller-supplied random `nonce`. -/
def encrypt (mode : CryptoMode) (nonce : List Nat) (data key : PyData) :
    Except PyErr EncResult :=
  let d := data.toBytes
  match mode with
  | .dummy =>
    match utf8Decode d with
    | some cs =>
      .ok ⟨"dummy_encrypted_" ++ String.mk cs, "dummy_nonce", "dummy"⟩
    | none => .error .unicodeDecodeError
  | .real => do
    let k ← prepareKey key
    let ct := secretboxCipher k nonce d
    .ok ⟨bytesToHex ct, bytesToHex nonce, "nacl_secretbox"⟩

/-- `decrypt(ciphertext, nonce, key)` (`core/crypto.py` lines 139–175).
Dummy mode strips the `"dummy_encrypted_"` prefix; real mode hex-decodes
the arguments, reconstructs `nonce ++ ct` and opens the SecretBox model,
with every failure mapped to `None` by the `except` clause. -/
def decrypt (mode : CryptoMode) (ciphertext nonce : String) (key : PyData) :
    Option (List Nat) :=
  match mode with
  | .dummy =>
    if pyStartsWith ciphertext "dummy_encrypted_" then
      some (strBytes (pyDrop ciphertext 16))
    else none
  | .real =>
    match prepareKey key with
    | .error _ => none
    | .ok k =>
      match hexToBytes ciphertext, hexToBytes nonce with
      | some ctBytes, some nonceBytes =>
        let combined := nonceBytes ++ ctBytes
        secretboxOpen k (combined.take 24) (combined.drop 24)
      | _, _ => none

/-! ## Stores

`core/command.py` and `core/handle.py` accept any dict-like store and
feature-test it with `hasattr(db, "begin_transaction")`.  The
repository's `PersistentDict` (`src/core/db.py`) persists every write
immediately (`_persist_key` commits per key) and implements no
`begin_transaction`/`commit`/`rollback`/`with_retry`, so the only
transactional stores are external to `src/`.  `TxStore` is therefore
modelled from the spec (§4.1): all writes in a transaction are durable
together on commit, or none on rollback, and reads inside a transaction
observe that transaction's uncommitted writes. -/

/-- Modelled from the spec: a transactional key/value store (spec
§4.1); absent from the repository, whose `PersistentDict` has no
transaction support. -/
structure TxStore where
  committed : List (String × Json)
  txn : Option (List (String × Json))
  deriving DecidableEq

namespace TxStore

/-- The view reads observe: the open transaction if any, else the
committed state. -/
def view (s : TxStore) : List (String × Json) := s.txn.getD s.committed

/-- Modelled from the spec: `begin_transaction()` opens a transaction
whose initial view is the committed state. -/
def begin_transaction (s : TxStore) : TxStore :=
  ⟨s.committed, some s.committed⟩

/-- Modelled from the spec: `commit()` makes the transaction's writes
durable together. -/
def commit (s : TxStore) : TxStore := ⟨s.view, none⟩

/-- Modelled from the spec: `rollback()` discards the writes made since
`begin_transaction()`. -/
def rollback (s : TxStore) : TxStore := ⟨s.committed, none⟩

/-- `db[k] = v`: inside a transaction the write is buffered; outside it
is durable immediately. -/
def set (s : TxStore) (k : String) (v : Json) : TxStore :=
  match s.txn with
  | some t => ⟨s.committed, some (Json.dictSet t k v)⟩
  | none => ⟨Json.dictSet s.committed k v, none⟩

end TxStore

/-- A store as the duck-typed code sees it: either a plain `dict` (no
transaction support) or a transactional store. -/
inductive Store where
  | plain : List (String × Json) → Store
  | tx : TxStore → Store
  deriving DecidableEq

namespace Store

/-- `hasattr(db, "begin_transaction")`. -/
def hasTransactions : Store → Bool
  | .plain _ => false
  | .tx _ => true

/-- The current readable key/value view. -/
def view : Store → List (String × Json)
  | .plain kv => kv
  | .tx s => s.view

/-- `db[k] = v`. -/
def set : Store → String → Json → Store
  | .plain kv, k, v => .plain (Json.dictSet kv k v)
  | .tx s, k, v => .tx (s.set k v)

/-- `db.get(k, d)`. -/
def getD (db : Store) (k : String) (d : Json) : Json :=
  (Json.lookup db.view k).getD d

/-- `db.begin_transaction()` guarded by `has_transactions`. -/
def beginIf : Store → Store
  | .plain kv => .plain kv
  | .tx s => .tx s.begin_transaction

end Store

/-! ## Command executor (`core/command.py`) -/

/-- Substring test on character lists (Python `p in s` for strings). -/
def isSubstring (p : List Char) : List Char → Bool
  | [] => p.isEmpty
  | c :: rest => p.isPrefixOf (c :: rest) || isSubstring p rest

/-- Python `key in container` (`in` on dicts tests keys, on lists tests
membership, on strings substrings; other containers raise). -/
def pyContains (container : Json) (key : String) : Except PyErr Bool :=
  match container with
  | .obj kvs => .ok (Json.dictHas kvs key)
  | .arr xs => .ok (xs.any (fun x => Json.pyEq x (.str key)))
  | .str s => .ok (isSubstring key.data s.data)
  | _ => .error .typeError

/-- Python `container[key]` for a string key. -/
def pySubscript (container : Json) (key : String) : Except PyErr Json :=
  match container with
  | .obj kvs =>
    match Json.lookup kvs key with
    | some v => .ok v
    | none => .error (.keyError key)
  | _ => .error .typeError

/-- The inner loop of `is_infrastructure_update` (`core/command.py`
lines 33–41): `outgoing` keys are allowed, a key already present in the
current state must be unchanged (`!=` is Python equality), and keys not
in the current state fall through without a check. -/
def infraStateLoop (current_state : Json) :
    List (String × Json) → Except PyErr Bool
  | [] => .ok true
  | (sk, sv) :: rest =>
    if sk = "outgoing" then infraStateLoop current_state rest
    else do
      let mem ← pyContains current_state sk
      if mem then do
        let cur ← pySubscript current_state sk
        if !Json.pyEq cur sv then .ok false
        else infraStateLoop current_state rest
      else infraStateLoop current_state rest

/-- `is_infrastructure_update(key, value, db)` (`core/command.py` lines
24–44). -/
def is_infrastructure_update (key : String) (value : Json) (db : Store) :
    Except PyErr Bool :=
  if key = "incoming" || key = "eventStore" then .ok true
  else if key = "state" then
    match value with
    | .obj items => infraStateLoop (db.getD "state" (.obj [])) items
    | _ => .ok false
  else .ok false

/-- The `result["db"]` application loop (`core/command.py` lines
102–110): validation runs only when the store has transactions, and
each entry is written to the store in order.  Errors carry the store
state at raise time (the `except` clause rolls it back). -/
def applyDbUpdates (hasTx : Bool) (commandName : String) (db : Store) :
    List (String × Json) → Except (PyErr × Store) Store
  | [] => .ok db
  | (k, v) :: rest => do
    let ok ←
      if hasTx then
        match is_infrastructure_update k v db with
        | .ok b => pure b
        | .error e => throw (e, db)
      else pure true
    if !ok then
      throw (.valueError ("Command " ++ commandName ++
        " attempted to modify domain state " ++ k ++
        ". Domain state must be modified through events."), db)
    else applyDbUpdates hasTx commandName (db.set k v) rest

/-- Envelope construction for one entry of `result["newEvents"]`
(`core/command.py` lines 114–151): metadata gets `selfGenerated`,
a fresh `eventId` and `timestamp`; a `received_by` field moves from the
event to the metadata; a self-generated event with a `pubkey` and no
`received_by` defaults `received_by` to the pubkey. -/
def buildEnvelope (uuidStr : String) (ts : Json) (event : Json) :
    Except PyErr Json := do
  let md0 : List (String × Json) :=
    [("selfGenerated", .bool true), ("eventId", .str uuidStr),
     ("timestamp", ts)]
  let hasRecv ← pyContains event "received_by"
  let (md1, eventCopy) ←
    if hasRecv then do
      let rb ← pySubscript event "received_by"
      match event with
      | .obj kvs =>
        pure (Json.dictSet md0 "received_by" rb, Json.obj (Json.dictDel kvs "received_by"))
      | _ => throw .typeError
    else pure (md0, event)
  let md2 :=
    if !hasRecv then
      let possiblePubkey : Option Json :=
        match eventCopy with
        | .obj kvs => Json.lookup kvs "pubkey"
        | _ => none
      match possiblePubkey with
      | some pk => if Json.pyTruthy pk then Json.dictSet md1 "received_by" pk else md1
      | none => md1
    else md1
  pure (.obj [("data", eventCopy), ("metadata", .obj md2)])

/-- The `result["newEvents"]` projection loop (`core/command.py` lines
113–153): each event becomes an envelope (consuming one fresh UUID) and
is dispatched through `handle` with `auto_transaction=False`; `handle`
is the dynamically loaded dispatcher, injected as `hndl`. -/
def processNewEvents (hndl : Store → Json → Json → Except (PyErr × Store) Store)
    (uuids : List String) (timeNow ts : Json) (db : Store) :
    List Json → Except (PyErr × Store) Store
  | [] => .ok db
  | e :: rest => do
    let env ←
      match buildEnvelope (uuids.headD "") ts e with
      | .ok env => pure env
      | .error err => throw (err, db)
    let db' ← hndl db env timeNow
    processNewEvents hndl uuids.tail timeNow ts db' rest

/-- `time_now_ms or int(time.time() * 1000)` (`core/command.py` line
123): a falsy `time_now_ms` falls back to the wall clock. -/
def effectiveTimestamp (timeNow : Json) (wallClock : Int) : Json :=
  if Json.pyTruthy timeNow then timeNow else .num wallClock

/-- The `try` body of `_run_command_with_tx` (`core/command.py` lines
88–153) after the command module has produced `result`: apply the
direct `db` updates, then project the `newEvents`. -/
def runCommandBody (hndl : Store → Json → Json → Except (PyErr × Store) Store)
    (commandName : String) (result : Json) (uuids : List String)
    (timeNow : Json) (wallClock : Int) (db : Store) : Except (PyErr × Store) Store := do
  let hasTx := db.hasTransactions
  let db1 ←
    match result with
    | .obj kvs =>
      match Json.lookup kvs "db" with
      | some (.obj updates) => applyDbUpdates hasTx commandName db updates
      | some _ => throw (.typeError, db)
      | none => .ok db
    | _ => .ok db
  match result with
  | .obj kvs =>
    match Json.lookup kvs "newEvents" with
    | some (.arr events) =>
      processNewEvents hndl uuids timeNow (effectiveTimestamp timeNow wallClock) db1 events
    | some _ => throw (.typeError, db1)
    | none => .ok db1
  | _ => .ok db1

/-- `_run_command_with_tx` (`core/command.py` lines 66–165) from the
point where the command module has executed and returned `result`
(module loading and `execute` are dynamic; the commands the claims
quantify over return a result without writing the store directly):
open a transaction when supported, run the body, commit on success and
roll back on any error, re-raising it.  The store travels with the
error because the Python caller shares the mutated store object and
observes its rolled-back state after the raise. -/
def run_command_with_tx (hndl : Store → Json → Json → Except (PyErr × Store) Store)
    (commandName : String) (result : Json) (uuids : List String)
    (timeNow : Json) (wallClock : Int) (db : Store) : Except (PyErr × Store) (Store × Json) :=
  let hasTx := db.hasTransactions
  let db0 := db.beginIf
  match runCommandBody hndl commandName result uuids timeNow wallClock db0 with
  | .ok db' =>
    if hasTx then
      match db' with
      | .tx s => .ok (.tx s.commit, result)
      | .plain kv => .error (.typeError, .plain kv)
    else .ok (db', result)
  | .error (e, dbAtRaise) =>
    if hasTx then
      match dbAtRaise with
      | .tx s => .error (e, .tx s.rollback)
      | .plain kv => .error (e, .plain kv)
    else .error (e, dbAtRaise)

/-! ## Python string/`repr`/`json.dumps` helpers -/

/-- `d.get(k, default)` where `d` must be a dict (Python raises
`AttributeError` on anything without `.get`). -/
def pyGetD (container : Json) (key : String) (dflt : Json) : Except PyErr Json :=
  match container with
  | .obj kvs => .ok ((Json.lookup kvs key).getD dflt)
  | _ => .error .attributeError

/-- Python `len()` (strings count code points; numbers and `None` raise
`TypeError`). -/
def pyLen : Json → Except PyErr Nat
  | .str s => .ok s.data.length
  | .arr xs => .ok xs.length
  | .obj kvs => .ok kvs.length
  | _ => .error .typeError

/-- Strict code-point order on character lists (Python `<` on `str`). -/
def charListLt : List Char → List Char → Bool
  | [], [] => false
  | [], _ :: _ => true
  | _ :: _, [] => false
  | c :: cs, d :: ds =>
    if c.toNat < d.toNat then true
    else if d.toNat < c.toNat then false
    else charListLt cs ds

/-- Stable insertion of `x` into a sorted list under a strict order:
`x` goes before the first element it is not greater than, so equal
elements keep their original order. -/
def stableInsert (lt : α → α → Bool) (x : α) : List α → List α
  | [] => [x]
  | y :: ys => if lt y x then y :: stableInsert lt x ys else x :: y :: ys

/-- Stable sort (insertion sort), the observable behaviour of Python
`list.sort` / `sorted`. -/
def stableSort (lt : α → α → Bool) : List α → List α
  | [] => []
  | x :: xs => stableInsert lt x (stableSort lt xs)

mutual

/-- Python `repr` on JSON-like values.  Scalars are exact (`None`,
`True`, decimal ints); strings prefer single quotes (double quotes when
the string contains a single quote and no double quote) and escape the
backslash, the quote, newline, carriage return, tab and other control
characters as `\xHH`; containers recurse.  Non-ASCII printable
characters are kept as-is (CPython escapes only unprintable ones; the
stores the claims touch are ASCII). -/
def pyRepr : Json → String
  | .null => "None"
  | .bool true => "True"
  | .bool false => "False"
  | .num n => toString n
  | .str s =>
    let useDouble := s.data.contains '\'' && !s.data.contains '"'
    let q : Char := if useDouble then '"' else '\''
    ⟨q :: (s.data.map (fun c =>
      if c = '\\' then ['\\', '\\']
      else if c = q then ['\\', q]
      else if c = '\n' then ['\\', 'n']
      else if c = '\r' then ['\\', 'r']
      else if c = '\t' then ['\\', 't']
      else if c.toNat < 32 || c.toNat = 127 then
        ['\\', 'x', hexDig (c.toNat / 16), hexDig (c.toNat % 16)]
      else [c])).flatten ++ [q]⟩
  | .arr xs => "[" ++ String.intercalate ", " (pyReprList xs) ++ "]"
  | .obj kvs =>
    "\x7b" ++ String.intercalate ", " (pyReprKV kvs) ++ "\x7d"

def pyReprList : List Json → List String
  | [] => []
  | x :: xs => pyRepr x :: pyReprList xs

def pyReprKV : List (String × Json) → List String
  | [] => []
  | (k, v) :: rest => (pyRepr (.str k) ++ ": " ++ pyRepr v) :: pyReprKV rest

end

/-- Python `str()`: identity on strings, `repr` otherwise. -/
def pyStr : Json → String
  | .str s => s
  | v => pyRepr v

/-- JSON string escaping as `json.dumps` emits it (`ensure_ascii`
default: `\"`, `\\`, `\b`, `\f`, `\n`, `\r`, `\t`, `\u00HH` for other
control characters, `\uHHHH` (with surrogate pairs) for non-ASCII). -/
def jsonEscapeChar (c : Char) : List Char :=
  if c = '"' then ['\\', '"']
  else if c = '\\' then ['\\', '\\']
  else if c = '\n' then ['\\', 'n']
  else if c = '\t' then ['\\', 't']
  else if c = '\r' then ['\\', 'r']
  else if c.toNat = 8 then ['\\', 'b']
  else if c.toNat = 12 then ['\\', 'f']
  else if c.toNat < 32 then
    ['\\', 'u', '0', '0', hexDig (c.toNat / 16), hexDig (c.toNat % 16)]
  else if c.toNat < 128 then [c]
  else if c.toNat < 0x10000 then
    ['\\', 'u', hexDig (c.toNat / 4096 % 16), hexDig (c.toNat / 256 % 16),
     hexDig (c.toNat / 16 % 16), hexDig (c.toNat % 16)]
  else
    let v := c.toNat - 0x10000
    let hi := 0xD800 + v / 0x400
    let lo := 0xDC00 + v % 0x400
    ['\\', 'u', hexDig (hi / 4096 % 16), hexDig (hi / 256 % 16),
     hexDig (hi / 16 % 16), hexDig (hi % 16),
     '\\', 'u', hexDig (lo / 4096 % 16), hexDig (lo / 256 % 16),
     hexDig (lo / 16 % 16), hexDig (lo % 16)]

/-- A JSON string literal as `json.dumps` emits it. -/
def jsonQuote (s : String) : String :=
  ⟨'"' :: (s.data.map jsonEscapeChar).flatten ++ ['"']⟩

mutual

/-- `json.dumps(v, sort_keys=True)` with the default separators
`", "` and `": "` (as called by `core/greedy_decrypt.py` line 77 and
the `signed_groups` event-store helper). -/
def pyJsonDumps : Json → String
  | .null => "null"
  | .bool true => "true"
  | .bool false => "false"
  | .num n => toString n
  | .str s => jsonQuote s
  | .arr xs => "[" ++ String.intercalate ", " (pyJsonDumpsList xs) ++ "]"
  | .obj kvs =>
    let entries := stableSort (fun a b => charListLt a.1.data b.1.data)
      (pyJsonDumpsKV kvs)
    "\x7b" ++
      String.intercalate ", " (entries.map (fun p => jsonQuote p.1 ++ ": " ++ p.2)) ++
      "\x7d"

def pyJsonDumpsList : List Json → List String
  | [] => []
  | x :: xs => pyJsonDumps x :: pyJsonDumpsList xs

def pyJsonDumpsKV : List (String × Json) → List (String × String)
  | [] => []
  | (k, v) :: rest => (k, pyJsonDumps v) :: pyJsonDumpsKV rest

end

/-! ## Event-store helper
(`src/protocols/signed_groups/handlers/_event_store.py`) -/

/-- `isinstance(j, dict) and j.get(k)`: the value under `k` when `j` is
a dict holding a truthy value there. -/
def truthyKey (j : Json) (k : String) : Option Json :=
  match j with
  | .obj kvs =>
    match Json.lookup kvs k with
    | some v => if Json.pyTruthy v then some v else none
    | none => none
  | _ => none

/-- `_ensure_event_id(metadata, data)`: `str(metadata["eventId"])` when
`metadata` is a dict with a truthy `eventId`; else `str(data["id"])`
when `data` is a dict with a truthy `id`; else `str(uuid.uuid4())` —
the fresh random UUID string is injected as `freshUuid`. -/
def ensure_event_id (metadata data : Json) (freshUuid : String) : String :=
  match truthyKey metadata "eventId" with
  | some v => pyStr v
  | none =>
    match truthyKey data "id" with
    | some v => pyStr v
    | none => freshUuid

/-- One row of the `event_store` SQL table
(`event_id` is the primary key). -/
structure EventStoreRow where
  event_id : String
  event_type : Json
  dataJson : String
  metadataJson : String
  created_at_ms : Int
  deriving DecidableEq

/-- `append(db, envelope, time_now_ms)` of the `signed_groups`
event-store helper: `INSERT OR IGNORE INTO event_store` keyed by
`_ensure_event_id`; any exception is swallowed (`except: pass`), so a
failing step leaves the table unchanged. -/
def event_store_append (table : List EventStoreRow) (envelope : Json)
    (timeNow : Json) (freshUuid : String) : List EventStoreRow :=
  let attempt : Except PyErr EventStoreRow := do
    let dataRaw ← pyGetD envelope "data" .null
    let data := if Json.pyTruthy dataRaw then dataRaw else .obj []
    let mdRaw ← pyGetD envelope "metadata" .null
    let metadata := if Json.pyTruthy mdRaw then mdRaw else .obj []
    let t ← pyGetD data "type" .null
    let event_type := if Json.pyTruthy t then t else .str "unknown"
    let event_id := ensure_event_id metadata data freshUuid
    let created : Int :=
      match timeNow with
      | .num n => if n ≠ 0 then n else 0
      | _ => 0
    pure ⟨event_id, event_type, pyJsonDumps data, pyJsonDumps metadata, created⟩
  match attempt with
  | .error _ => table
  | .ok row =>
    if table.any (fun r => r.event_id = row.event_id) then table
    else table ++ [row]

/-! ## The `add` projector
(`src/protocols/signed_groups/handlers/add/projector.py`)

The store reaching a projector is dict-like; the embedding uses the
top-level key/value list.  Python raises modelled by `Except` roll the
enclosing transaction back (`core/handle.py`).  Dict keys are strings;
stores whose `blocked_by_id`/`ready_to_unblock` would need non-string
keys are outside the state space (Python would build an int-keyed dict
there; no store built by this protocol does). -/

/-- `db["k"]` on the top-level store. -/
def kvGet (db : List (String × Json)) (k : String) : Except PyErr Json :=
  match Json.lookup db k with
  | some v => .ok v
  | none => .error (.keyError k)

/-- The shared blocked-branch shape (`add/projector.py` lines 28–43,
59–74, 85–100, 110–125): append the envelope to `eventStore`, then
append a `(event_id, reason)` marker to `blocked_by_id[bkey]`. -/
def addProjectBlocked (db : List (String × Json)) (envelope : Json)
    (bkey : String) (add_id : Json) (reason : String) :
    Except PyErr (List (String × Json)) := do
  let db1 := if Json.dictHas db "eventStore" then db
    else Json.dictSet db "eventStore" (.arr [])
  let es ← kvGet db1 "eventStore"
  let db2 ←
    match es with
    | .arr evs => pure (Json.dictSet db1 "eventStore" (.arr (evs ++ [envelope])))
    | _ => throw .attributeError
  let state ← kvGet db2 "state"
  let blocked ← pyGetD state "blocked_by_id" (.obj [])
  let bkvs ←
    match blocked with
    | .obj bkvs => pure bkvs
    | _ => throw .typeError
  let bkvs1 := if Json.dictHas bkvs bkey then bkvs
    else Json.dictSet bkvs bkey (.arr [])
  let entry ←
    match Json.lookup bkvs1 bkey with
    | some v => pure v
    | none => throw (.keyError bkey)
  let marker := Json.obj [("event_id", add_id), ("reason", .str reason)]
  let bkvs2 ←
    match entry with
    | .arr l => pure (Json.dictSet bkvs1 bkey (.arr (l ++ [marker])))
    | _ => throw .attributeError
  match state with
  | .obj skvs =>
    pure (Json.dictSet db2 "state"
      (.obj (Json.dictSet skvs "blocked_by_id" (.obj bkvs2))))
  | _ => throw .typeError

/-- The `for existing in db["state"]["adds"]` duplicate check
(`add/projector.py` lines 46–48). -/
def addsContainId (add_id : Json) : List Json → Except PyErr Bool
  | [] => .ok false
  | x :: rest =>
    match x with
    | .obj kvs =>
      if Json.pyEq ((Json.lookup kvs "id").getD .null) add_id then .ok true
      else addsContainId add_id rest
    | _ => .error .attributeError

/-- An `id`-based existence scan (`group.get("id") == group_id` etc.,
`add/projector.py` lines 53–56, 79–82, 104–107). -/
def listHasId (target : Json) : List Json → Except PyErr Bool
  | [] => .ok false
  | x :: rest =>
    match x with
    | .obj kvs =>
      if Json.pyEq ((Json.lookup kvs "id").getD .null) target then .ok true
      else listHasId target rest
    | _ => .error .attributeError

/-- The string sort key of an entry (defaulting where the guarded sort
cannot reach). -/
def strIdOf (x : Json) : String :=
  match x with
  | .obj kvs =>
    match Json.lookup kvs "id" with
    | some (.str s) => s
    | _ => ""
  | _ => ""

/-- The integer sort key of an entry. -/
def numIdOf (x : Json) : Int :=
  match x with
  | .obj kvs =>
    match Json.lookup kvs "id" with
    | some (.num n) => n
    | _ => 0
  | _ => 0

/-- `state["adds"].sort(key=lambda a: a["id"])` (`add/projector.py`
line 138): every entry needs an `id` (else `KeyError`), the keys must
be mutually comparable (all strings or all ints, else `TypeError`), and
the sort is stable. -/
def sortAddsById (items : List Json) : Except PyErr (List Json) := do
  let keys ← items.mapM (fun x =>
    match x with
    | .obj kvs =>
      match Json.lookup kvs "id" with
      | some v => pure v
      | none => throw (.keyError "id")
    | _ => throw .typeError)
  if keys.all (fun v => match v with | .str _ => true | _ => false) then
    pure (stableSort (fun a b => charListLt (strIdOf a).data (strIdOf b).data) items)
  else if keys.all (fun v => match v with | .num _ => true | _ => false) then
    pure (stableSort (fun a b => numIdOf a < numIdOf b) items)
  else throw .typeError

/-- `unblock(db, event_id)` (`add/projector.py` lines 153–166): every
marker waiting on `event_id` is flagged in
`state["ready_to_unblock"]`. -/
def addUnblock (db : List (String × Json)) (event_id : Json) :
    Except PyErr (List (String × Json)) := do
  let state := (Json.lookup db "state").getD (.obj [])
  let blocked ← pyGetD state "blocked_by_id" (.obj [])
  let ready ← pyGetD state "ready_to_unblock" (.obj [])
  let waiting : List Json ←
    match event_id, blocked with
    | .str k, .obj bkvs =>
      match Json.lookup bkvs k with
      | some (.arr l) => pure l
      | some _ => throw .typeError
      | none => pure []
    | _, .obj _ => pure []
    | _, _ => throw .typeError
  let ready' ← waiting.foldlM (fun (r : Json) b => do
    let ev ← pySubscript b "event_id"
    match r, ev with
    | .obj rkvs, .str s => pure (Json.obj (Json.dictSet rkvs s (.bool true)))
    | _, _ => throw .typeError) ready
  let stateCur ← kvGet db "state"
  match stateCur with
  | .obj skvs =>
    pure (Json.dictSet db "state" (.obj (Json.dictSet skvs "ready_to_unblock" ready')))
  | _ => throw .typeError

/-- `project(db, envelope, time_now_ms)` of the `add` handler
(`add/projector.py` lines 1–151): ensures `state`/`state["adds"]`,
validates the event fields, blocks (event-store append + marker) when
the signer is unknown or the group/user/adder is missing, deduplicates
by `id`, and otherwise records the add, appends the envelope to the
event store and unblocks waiters.  `time_now_ms` is unused by the
source body. -/
def addProject (db0 : List (String × Json)) (envelope : Json) :
    Except PyErr (List (String × Json)) := do
  let db1 := if Json.dictHas db0 "state" then db0
    else Json.dictSet db0 "state" (.obj [])
  let state1 ← kvGet db1 "state"
  let hasAdds ← pyContains state1 "adds"
  let db2 ←
    if !hasAdds then
      match state1 with
      | .obj skvs => pure (Json.dictSet db1 "state" (.obj (Json.dictSet skvs "adds" (.arr []))))
      | _ => throw .typeError
    else pure db1
  let data ← pyGetD envelope "data" (.obj [])
  let dtype ← pyGetD data "type" .null
  if !Json.pyEq dtype (.str "add") then return db2
  let add_id ← pyGetD data "id" .null
  let group_id ← pyGetD data "group_id" .null
  let user_id ← pyGetD data "user_id" .null
  let added_by ← pyGetD data "added_by" .null
  let signature ← pyGetD data "signature" .null
  if !(Json.pyTruthy add_id && Json.pyTruthy group_id && Json.pyTruthy user_id &&
      Json.pyTruthy added_by && Json.pyTruthy signature) then
    return db2
  let sigStr ←
    match signature with
    | .str s => pure s
    | _ => throw .attributeError
  if pyStartsWith sigStr "dummy_sig_from_unknown" then
    addProjectBlocked db2 envelope "invalid_signature" add_id
      "Event signed by unknown user"
  else do
    let state2 ← kvGet db2 "state"
    let addsVal ← pySubscript state2 "adds"
    let addsList ←
      match addsVal with
      | .arr l => pure l
      | _ => throw .typeError
    let dup ← addsContainId add_id addsList
    if dup then return db2
    let groups ← pyGetD state2 "groups" (.arr [])
    let groupsList ←
      match groups with
      | .arr l => pure l
      | _ => throw .typeError
    let groupExists ← listHasId group_id groupsList
    if !groupExists then
      match group_id with
      | .str g => addProjectBlocked db2 envelope g add_id ("Group " ++ g ++ " not found")
      | _ => throw .typeError
    else do
      let users ← pyGetD state2 "users" (.arr [])
      let usersList ←
        match users with
        | .arr l => pure l
        | _ => throw .typeError
      let userExists ← listHasId user_id usersList
      if !userExists then
        match user_id with
        | .str u => addProjectBlocked db2 envelope u add_id ("User " ++ u ++ " not found")
        | _ => throw .typeError
      else do
        let adderExists ← listHasId added_by usersList
        if !adderExists then
          match added_by with
          | .str a => addProjectBlocked db2 envelope a add_id ("Adder user " ++ a ++ " not found")
          | _ => throw .typeError
        else do
          let add_data := Json.obj
            [("id", add_id), ("group_id", group_id), ("user_id", user_id),
             ("added_by", added_by)]
          let sortedAdds ← sortAddsById (addsList ++ [add_data])
          let state3 ←
            match state2 with
            | .obj skvs => pure (Json.obj (Json.dictSet skvs "adds" (.arr sortedAdds)))
            | _ => throw .typeError
          let db3 := Json.dictSet db2 "state" state3
          let db4 := if Json.dictHas db3 "eventStore" then db3
            else Json.dictSet db3 "eventStore" (.arr [])
          let es ← kvGet db4 "eventStore"
          let db5 ←
            match es with
            | .arr evs => pure (Json.dictSet db4 "eventStore" (.arr (evs ++ [envelope])))
            | _ => throw .attributeError
          addUnblock db5 add_id

/-- A store with empty `adds`/`users`/`groups` (so any add is blocked on
its group). -/
def c3db : List (String × Json) :=
  [("state", Json.obj [("adds", Json.arr []), ("users", Json.arr []),
    ("groups", Json.arr [])])]

/-- An add envelope whose group `g1` is unknown. -/
def c3env : Json :=
  Json.obj [("data", Json.obj [("type", Json.str "add"), ("id", Json.str "a1"),
    ("group_id", Json.str "g1"), ("user_id", Json.str "u1"),
    ("added_by", Json.str "u2"), ("signature", Json.str "dummy_sig_x")])]

/-- `project(c3db, c3env)`: one blocked marker, one event-store entry. -/
def c3db1 : List (String × Json) :=
  [("state", Json.obj [("adds", Json.arr []), ("users", Json.arr []),
    ("groups", Json.arr []),
    ("blocked_by_id", Json.obj [("g1", Json.arr [Json.obj
      [("event_id", Json.str "a1"),
       ("reason", Json.str "Group g1 not found")]])])]),
   ("eventStore", Json.arr [c3env])]

/-- `project(project(c3db, c3env), c3env)`: the marker and the
event-store entry are both duplicated. -/
def c3db2 : List (String × Json) :=
  [("state", Json.obj [("adds", Json.arr []), ("users", Json.arr []),
    ("groups", Json.arr []),
    ("blocked_by_id", Json.obj [("g1", Json.arr [Json.obj
      [("event_id", Json.str "a1"),
       ("reason", Json.str "Group g1 not found")],
      Json.obj
      [("event_id", Json.str "a1"),
       ("reason", Json.str "Group g1 not found")]])])]),
   ("eventStore", Json.arr [c3env, c3env])]

/-- A store where group `g1` and users `u1`, `u2` exist (the happy path
of the add projector). -/
def c3wdb : List (String × Json) :=
  [("state", Json.obj [("adds", Json.arr []),
    ("groups", Json.arr [Json.obj [("id", Json.str "g1")]]),
    ("users", Json.arr [Json.obj [("id", Json.str "u1")],
      Json.obj [("id", Json.str "u2")]])])]

/-- An add envelope accepted by `c3wdb`. -/
def c3wenv : Json :=
  Json.obj [("data", Json.obj [("type", Json.str "add"), ("id", Json.str "a1"),
    ("group_id", Json.str "g1"), ("user_id", Json.str "u1"),
    ("added_by", Json.str "u2"), ("signature", Json.str "dummy_sig_abc")])]

/-- `project(c3wdb, c3wenv)`: the add is recorded and the envelope
appended to the event store. -/
def c3wdb1 : List (String × Json) :=
  [("state", Json.obj [("adds", Json.arr [Json.obj [("id", Json.str "a1"),
      ("group_id", Json.str "g1"), ("user_id", Json.str "u1"),
      ("added_by", Json.str "u2")]]),
    ("groups", Json.arr [Json.obj [("id", Json.str "g1")]]),
    ("users", Json.arr [Json.obj [("id", Json.str "u1")],
      Json.obj [("id", Json.str "u2")]]),
    ("ready_to_unblock", Json.obj [])]),
   ("eventStore", Json.arr [c3wenv])]

/-! ## `blocked.process_unblocked`
(`src/protocols/signed_groups/handlers/blocked/process_unblocked.py`)

The dispatcher `handle` is loaded dynamically; it is injected as
`hndl (db, envelope, time_now_ms)` (always called with
`auto_transaction=False`).  Errors carry the Python locals live at the
raise so the `except` clause can rebuild its state. -/

/-- Loop locals of `execute`: the store and the `state`,
`ready_to_unblock`, `blocked_by_id` bindings. -/
structure PULocals where
  db : Store
  state : Json
  ready : Json
  blocked : Json
  deriving DecidableEq

/-- The `blocked_by_id` rebuild (`process_unblocked.py` lines 31–38):
drop every marker for `event_id`, deleting keys left empty. -/
def puFilterBlocked (event_id : String) (blocked : Json) :
    Except PyErr Json := do
  match blocked with
  | .obj bkvs => do
    let entries ← bkvs.foldlM (fun (acc : List (String × Json)) kv => do
      let (blocker_id, blocked_list) := kv
      match blocked_list with
      | .arr l => do
        let kept ← l.foldlM (fun (keep : List Json) b => do
          let ev ← pySubscript b "event_id"
          if !Json.pyEq ev (.str event_id) then pure (keep ++ [b]) else pure keep) []
        if kept.isEmpty then pure acc
        else pure (acc ++ [(blocker_id, Json.arr kept)])
      | _ => throw .typeError) []
    pure (.obj entries)
  | _ => throw .attributeError

/-- The envelope search (`process_unblocked.py` lines 46–51): the first
event-store entry whose `data.id` equals the marker id. -/
def puFindEnvelope (event_id : String) : List Json → Except PyErr (Option Json)
  | [] => .ok none
  | env :: rest => do
    let data ← pyGetD env "data" (.obj [])
    let envId ← pyGetD data "id" .null
    if Json.pyEq envId (.str event_id) then .ok (some env)
    else puFindEnvelope event_id rest

/-- The `try` body of one loop iteration (`process_unblocked.py` lines
28–66): delete the marker, rebuild `blocked_by_id`, write `state` back,
re-project the matching event-store envelope if any (re-reading the
state afterwards), and commit when the store is transactional. -/
def puTryIter (hndl : Store → Json → Json → Except (PyErr × Store) Store)
    (timeNow : Json) (eventStore : Json) (hasTx : Bool) (acc : PULocals)
    (event_id : String) : Except (PyErr × PULocals) PULocals := do
  let ⟨db, state, ready, blocked⟩ := acc
  let ready1 ←
    match ready with
    | .obj rkvs =>
      if Json.dictHas rkvs event_id then pure (Json.obj (Json.dictDel rkvs event_id))
      else throw ((PyErr.keyError event_id), acc)
    | _ => throw (PyErr.typeError, acc)
  let state1 ←
    match state with
    | .obj skvs => pure (Json.obj (Json.dictSet skvs "ready_to_unblock" ready1))
    | _ => throw (PyErr.typeError, { acc with ready := ready1 })
  let blocked1 ←
    match puFilterBlocked event_id blocked with
    | .ok b => pure b
    | .error e => throw (e, { acc with ready := ready1, state := state1 })
  let state2 ←
    match state1 with
    | .obj skvs => pure (Json.obj (Json.dictSet skvs "blocked_by_id" blocked1))
    | _ => throw (PyErr.typeError, { acc with ready := ready1, state := state1, blocked := blocked1 })
  let db1 := db.set "state" state2
  let cur : PULocals := ⟨db1, state2, ready1, blocked1⟩
  let evs ←
    match eventStore with
    | .arr l => pure l
    | _ => throw (PyErr.typeError, cur)
  let found ←
    match puFindEnvelope event_id evs with
    | .ok o => pure o
    | .error e => throw (e, cur)
  let after ←
    match found with
    | none => pure cur
    | some env =>
      match hndl db1 env timeNow with
      | .error (e, dbAtRaise) => throw (e, { cur with db := dbAtRaise })
      | .ok db2 => do
        let state' := (Json.lookup db2.view "state").getD (.obj [])
        let ready' ←
          match pyGetD state' "ready_to_unblock" (.obj []) with
          | .ok r => pure r
          | .error e => throw (e, { cur with db := db2, state := state' })
        let blocked' ←
          match pyGetD state' "blocked_by_id" (.obj []) with
          | .ok b => pure b
          | .error e => throw (e, { cur with db := db2, state := state', ready := ready' })
        pure ⟨db2, state', ready', blocked'⟩
  if hasTx then
    match after.db with
    | .tx s => pure { after with db := .tx s.commit }
    | .plain _ => throw (PyErr.attributeError, after)
  else pure after

/-- One loop iteration including the `except` clause
(`process_unblocked.py` lines 24–83): on any error the store is rolled
back (when transactional) and the marker is re-added for retry; errors
raised by the `except` clause itself propagate. -/
def puIter (hndl : Store → Json → Json → Except (PyErr × Store) Store)
    (timeNow : Json) (eventStore : Json) (acc : PULocals) (event_id : String) :
    Except (PyErr × Store) PULocals := do
  let hasTx := acc.db.hasTransactions
  let accB := { acc with db := acc.db.beginIf }
  match puTryIter hndl timeNow eventStore hasTx accB event_id with
  | .ok l => pure l
  | .error (_, lAtRaise) => do
    let dbR ←
      match hasTx, lAtRaise.db with
      | true, .tx s => pure (Store.tx s.rollback)
      | true, .plain kv => throw (PyErr.attributeError, Store.plain kv)
      | false, d => pure d
    let ready1 ←
      match lAtRaise.ready with
      | .obj rkvs => pure (Json.obj (Json.dictSet rkvs event_id (.bool true)))
      | _ => throw (PyErr.typeError, dbR)
    let state1 ←
      match lAtRaise.state with
      | .obj skvs => pure (Json.obj (Json.dictSet skvs "ready_to_unblock" ready1))
      | _ => throw (PyErr.typeError, dbR)
    let dbR1 := dbR.set "state" state1
    pure ⟨dbR1, state1, ready1, lAtRaise.blocked⟩

/-- `execute(params, db)` of `blocked.process_unblocked`
(`process_unblocked.py` lines 1–83): read the markers, return
`processed: 0` when none are pending, otherwise take the first 1000
marker ids in map insertion order, run the per-marker loop, and report
the number of selected markers (counted even for markers whose
processing failed and was re-queued). -/
def blocked_process_unblocked
    (hndl : Store → Json → Json → Except (PyErr × Store) Store)
    (params : Json) (db : Store) : Except (PyErr × Store) (Store × Json) := do
  let timeNow ←
    match pyGetD params "time_now_ms" (.num 1000) with
    | .ok t => pure t
    | .error e => throw (e, db)
  let state := db.getD "state" (.obj [])
  let ready ←
    match pyGetD state "ready_to_unblock" (.obj []) with
    | .ok r => pure r
    | .error e => throw (e, db)
  let blocked ←
    match pyGetD state "blocked_by_id" (.obj []) with
    | .ok b => pure b
    | .error e => throw (e, db)
  let eventStore := db.getD "eventStore" (.arr [])
  if !Json.pyTruthy ready then
    return (db, .obj [("processed", .num 0)])
  let ids ←
    match ready with
    | .obj rkvs => pure ((rkvs.map Prod.fst).take 1000)
    | _ => throw (PyErr.attributeError, db)
  let finalLocals ← ids.foldlM (puIter hndl timeNow eventStore)
    (⟨db, state, ready, blocked⟩ : PULocals)
  return (finalLocals.db, .obj [("processed", .num ids.length)])

/-- A dispatcher stub that appends each envelope it is asked to replay
to a top-level `_handled` list and changes nothing else; it observes
which events the job replays. -/
def puRecorder (db : Store) (env : Json) (_timeNow : Json) :
    Except (PyErr × Store) Store :=
  .ok (db.set "_handled" (.arr
    ((match Json.lookup db.view "_handled" with
      | some (.arr l) => l
      | _ => []) ++ [env])))

/-- An event-store entry with id `e1`. -/
def c5env1 : Json := Json.obj [("data", Json.obj [("id", Json.str "e1")])]

/-- An event-store entry with id `e2`. -/
def c5env2 : Json := Json.obj [("data", Json.obj [("id", Json.str "e2")])]

/-- A store whose event store holds both events but whose
`ready_to_unblock` marks only `e1`. -/
def c5db : Store :=
  Store.plain [("state", Json.obj [("ready_to_unblock", Json.obj
    [("e1", Json.bool true)]), ("blocked_by_id", Json.obj [])]),
   ("eventStore", Json.arr [c5env1, c5env2])]

/-- The store `blocked.process_unblocked` leaves behind on `c5db` with
the recording dispatcher: the marker is gone and only `e1` was
replayed. -/
def c5out : Store :=
  Store.plain [("state", Json.obj [("ready_to_unblock", Json.obj []),
    ("blocked_by_id", Json.obj [])]),
   ("eventStore", Json.arr [c5env1, c5env2]),
   ("_handled", Json.arr [c5env1])]

/-! ## Greedy decrypt (`core/greedy_decrypt.py`)

`json.loads` (Python standard library) is injected as `loads`; a parse
failure is `none` (the source catches exactly `JSONDecodeError` /
`UnicodeDecodeError` around its calls).  The result is `some envelope`
for a forwarded/partial envelope, `none` for a dropped blob; Python
raises surface as errors. -/

def greedy_decrypt (mode : CryptoMode) (loads : String → Option Json)
    (raw_blob : Json) (db : Store) (_current_identity : Json) :
    Except PyErr (Option Json) := do
  let hasEnvelope ← pyContains raw_blob "envelope"
  let isDecrypted ←
    if hasEnvelope then do
      let hasData ← pyContains raw_blob "data"
      if hasData then pyContains raw_blob "metadata" else pure false
    else pure false
  if isDecrypted then return some raw_blob
  let origin ← pyGetD raw_blob "origin" .null
  let receivedAt ← pyGetD raw_blob "received_at" .null
  let md0 : List (String × Json) :=
    [("origin", origin), ("receivedAt", receivedAt), ("selfGenerated", .bool false)]
  let hasData ← pyContains raw_blob "data"
  if !hasData then return none
  let dataVal ← pySubscript raw_blob "data"
  let n ← pyLen dataVal
  if n < 64 then return none
  let dataStr ←
    match dataVal with
    | .str s => pure s
    | _ => throw .typeError
  let outer_hash := pyTake dataStr 64
  let stateVal := db.getD "state" (.obj [])
  let keyMap ← pyGetD stateVal "key_map" (.obj [])
  let outerKey ←
    match keyMap with
    | .obj kvs => pure ((Json.lookup kvs outer_hash).getD .null)
    | _ => throw .attributeError
  if !Json.pyTruthy outerKey then
    let md := Json.dictSet (Json.dictSet (Json.dictSet md0
      "error" (.str ("Missing outer key: " ++ outer_hash)))
      "inNetwork" (.bool false)) "missingHash" (.str outer_hash)
    return some (.obj [("data", .null), ("metadata", .obj md)])
  let outer_cipher := pyDrop dataStr 64
  match mode with
  | .real => return none
  | .dummy => do
    let md1 := Json.dictSet md0 "outerKeyHash" (.str outer_hash)
    match loads outer_cipher with
    | none => return none
    | some partial_ => do
      let innerHash ← pyGetD partial_ "innerHash" (.str outer_hash)
      let innerKey ←
        match innerHash, keyMap with
        | .str h, .obj kvs => pure ((Json.lookup kvs h).getD .null)
        | .arr _, .obj _ => throw .typeError
        | .obj _, .obj _ => throw .typeError
        | _, .obj _ => pure .null
        | _, _ => throw .attributeError
      if !Json.pyTruthy innerKey then
        let md := Json.dictSet (Json.dictSet (Json.dictSet md1
          "error" (.str ("Missing inner key: " ++ pyStr innerHash)))
          "inNetwork" (.bool true)) "missingHash" innerHash
        return some (.obj [("data", partial_), ("metadata", .obj md)])
      let innerCipher ← pyGetD partial_ "data" .null
      if !Json.pyTruthy innerCipher then return none
      let md2 := Json.dictSet md1 "innerKeyHash" innerHash
      let innerStr ←
        match innerCipher with
        | .str s => pure s
        | _ => throw .attributeError
      match loads innerStr with
      | none => return none
      | some d =>
        let eid := blake2bHex 64 (strBytes (pyJsonDumps d))
        let md3 := Json.dictSet md2 "eventId" (.str eid)
        return some (.obj [("data", d), ("metadata", .obj md3)])

/-! # Theorems -/

/-! ## C6: dummy signatures -/

set_option maxRecDepth 40000 in
/-- C6 (counterexample): the claim says a dummy signature is
`"dummy_sig_"` + the first 16 hex characters of the BLAKE2b hash of the
data, but `core/crypto.py` line 64 uses `hashlib.sha256`; on the empty
message the two differ (`e3b0c44298fc1c14` vs `786a02f742015903`). -/
theorem c6_dummy_sign_blake2b_counterexample :
    sign .dummy (fun _ _ => "") (.bytes []) [] = "dummy_sig_e3b0c44298fc1c14" ∧
    "dummy_sig_" ++ pyTake (blake2bHex 64 []) 16 = "dummy_sig_786a02f742015903" ∧
    sign .dummy (fun _ _ => "") (.bytes []) [] ≠
      "dummy_sig_" ++ pyTake (blake2bHex 64 []) 16 := by
  refine ⟨by decide, by decide, by decide⟩

/-- C6 (amended): in dummy crypto mode, for every input `data` (bytes;
a `str` is UTF-8–encoded first) and every private key, `sign` returns
`"dummy_sig_"` followed by the first 16 hex characters of the SHA-256
hash of the data. -/
theorem c6_dummy_sign_sha256 (edSign : List Nat → List Nat → String)
    (data : PyData) (priv : List Nat) :
    sign .dummy edSign data priv =
      "dummy_sig_" ++ pyTake (sha256Hex data.toBytes) 16 := rfl

/-! ## C9: dummy verification ignores data and key -/

/-- C9 (confirmed): in dummy mode `verify` returns `True` exactly when
the signature starts with `"dummy_sig_"`, and two runs differing only
in the data or the public key give the same result
(`core/crypto.py` lines 89–91). -/
theorem c9_dummy_verify_depends_only_on_signature
    (edVerify : List Nat → List Nat → String → Bool)
    (data data' : PyData) (signature : String) (pk pk' : List Nat) :
    (verify .dummy edVerify data signature pk = true ↔
      pyStartsWith signature "dummy_sig_" = true) ∧
    verify .dummy edVerify data signature pk =
      verify .dummy edVerify data' signature pk' :=
  ⟨Iff.rfl, rfl⟩

/-! ## C4: event-store keying -/

set_option maxRecDepth 40000 in
/-- C4 (counterexample): for an accepted envelope with neither
`metadata.eventId` nor `data.id`, the claim says the event-store key is
the canonical BLAKE2b hash of `data`; `_ensure_event_id` instead
returns a fresh `str(uuid.uuid4())` (36 characters, never a 128-hex
digest). -/
theorem c4_event_id_uuid_counterexample :
    ensure_event_id (.obj []) (.obj [("type", .str "x")])
        "00000000-0000-4000-8000-000000000000" =
      "00000000-0000-4000-8000-000000000000" ∧
    ensure_event_id (.obj []) (.obj [("type", .str "x")])
        "00000000-0000-4000-8000-000000000000" ≠
      blake2bHex 64 (strBytes (pyJsonDumps (.obj [("type", .str "x")]))) := by
  refine ⟨by decide, by decide⟩

/-- C4 (amended): the event-store key of an accepted envelope is
`str(metadata.eventId)` when `metadata` is a dict with a truthy
`eventId`; otherwise `str(data.id)` when `data` is a dict with a truthy
`id`; otherwise a freshly generated random UUID string — not a hash.
The `signed_groups` event-store `append` inserts (or ignores) its row
under exactly this key. -/
theorem c4_event_id_selection (metadata data : Json) (fresh : String) :
    (∀ mkvs v, metadata = .obj mkvs → Json.lookup mkvs "eventId" = some v →
      Json.pyTruthy v = true → ensure_event_id metadata data fresh = pyStr v) ∧
    ((match metadata with
      | .obj mkvs => ∀ v, Json.lookup mkvs "eventId" = some v → Json.pyTruthy v = false
      | _ => True) →
      (∀ dkvs w, data = .obj dkvs → Json.lookup dkvs "id" = some w →
        Json.pyTruthy w = true → ensure_event_id metadata data fresh = pyStr w) ∧
      ((match data with
        | .obj dkvs => ∀ w, Json.lookup dkvs "id" = some w → Json.pyTruthy w = false
        | _ => True) → ensure_event_id metadata data fresh = fresh)) ∧
    (∀ (table : List EventStoreRow) (t : Json) (dk mk : List (String × Json)),
      data = .obj dk → metadata = .obj mk →
      Json.pyTruthy data = true → Json.pyTruthy metadata = true →
      ∃ row : EventStoreRow, row.event_id = ensure_event_id metadata data fresh ∧
        event_store_append table (.obj [("data", data), ("metadata", metadata)]) t fresh =
          (if table.any (fun r => r.event_id = ensure_event_id metadata data fresh)
           then table else table ++ [row])) := by
  have tkSome : ∀ (j : Json) (k : String) (kvs : List (String × Json)) (v : Json),
      j = .obj kvs → Json.lookup kvs k = some v → Json.pyTruthy v = true →
      truthyKey j k = some v := by
    intro j k kvs v hj hv ht
    subst hj
    simp [truthyKey, hv, ht]
  have tkNone : ∀ (j : Json) (k : String),
      (match j with
       | .obj kvs => ∀ v, Json.lookup kvs k = some v → Json.pyTruthy v = false
       | _ => True) → truthyKey j k = none := by
    intro j k h
    cases j <;> simp [truthyKey]
    rename_i kvs
    rcases hv : Json.lookup kvs k with _ | v
    · simp
    · simp_all [h v hv]
  refine ⟨?_, ?_, ?_⟩
  · intro mkvs v hm hv ht
    simp [ensure_event_id, tkSome metadata "eventId" mkvs v hm hv ht]
  · intro hnone
    have h1 := tkNone metadata "eventId" hnone
    constructor
    · intro dkvs w hd hw ht
      simp [ensure_event_id, h1, tkSome data "id" dkvs w hd hw ht]
    · intro hdnone
      have h2 := tkNone data "id" hdnone
      simp [ensure_event_id, h1, h2]
  · intro table t dk mk hd hm htd htm
    refine ⟨⟨ensure_event_id metadata data fresh,
      (match data with
       | .obj dkvs => if Json.pyTruthy ((Json.lookup dkvs "type").getD .null)
         then (Json.lookup dkvs "type").getD .null else .str "unknown"
       | _ => .str "unknown"),
      pyJsonDumps data, pyJsonDumps metadata,
      (match t with | .num n => if n ≠ 0 then n else 0 | _ => 0)⟩, rfl, ?_⟩
    subst hd hm
    simp [event_store_append, pyGetD, Json.lookup, htd, htm, bind, Except.bind,
      Except.map, pure, Except.pure]

/-! ## C1: transactional atomicity (spec-modelled store) -/

/-- A sequence of `db[k] = v` writes. -/
def applyWrites (s : TxStore) (ws : List (String × Json)) : TxStore :=
  ws.foldl (fun t kv => t.set kv.1 kv.2) s

theorem applyWrites_open (c t : List (String × Json)) :
    ∀ ws, applyWrites ⟨c, some t⟩ ws =
      ⟨c, some (ws.foldl (fun m kv => Json.dictSet m kv.1 kv.2) t)⟩ := by
  intro ws
  induction ws generalizing t with
  | nil => rfl
  | cons kv rest ih => simpa [applyWrites, TxStore.set] using ih (Json.dictSet t kv.1 kv.2)

/-- C1 (confirmed, modelled from the spec — no store in `src/`
implements transactions): for every transactional store with no open
transaction and every write sequence, committing after
`begin_transaction` makes exactly the whole write sequence durable
together, and rolling back instead leaves the store unchanged. -/
theorem c1_transaction_atomicity (s : TxStore) (ws : List (String × Json))
    (h : s.txn = none) :
    (applyWrites s.begin_transaction ws).commit =
      ⟨ws.foldl (fun m kv => Json.dictSet m kv.1 kv.2) s.committed, none⟩ ∧
    (applyWrites s.begin_transaction ws).rollback = s := by
  obtain ⟨c, txn⟩ := s
  subst h
  rw [TxStore.begin_transaction, applyWrites_open]
  exact ⟨rfl, rfl⟩

/-- C1 (witness): a concrete run — two writes become durable together
on commit, and a rollback leaves the store untouched. -/
theorem c1_transaction_atomicity_witness :
    (applyWrites (TxStore.begin_transaction ⟨[("state", .obj [])], none⟩)
        [("a", .num 1), ("b", .num 2)]).commit =
      ⟨[("state", .obj []), ("a", .num 1), ("b", .num 2)], none⟩ ∧
    (applyWrites (TxStore.begin_transaction ⟨[("state", .obj [])], none⟩)
        [("a", .num 1), ("b", .num 2)]).rollback = ⟨[("state", .obj [])], none⟩ := by
  have h := c1_transaction_atomicity ⟨[("state", .obj [])], none⟩
    [("a", .num 1), ("b", .num 2)] rfl
  exact ⟨by rw [h.1]; decide, h.2⟩

/-! ## C8: plain stores skip the infrastructure validation -/

theorem applyDbUpdates_plain (cmd : String) :
    ∀ (us : List (String × Json)) (kv : List (String × Json)),
      applyDbUpdates false cmd (.plain kv) us =
        .ok (.plain (us.foldl (fun m p => Json.dictSet m p.1 p.2) kv)) := by
  intro us
  induction us with
  | nil => intro kv; rfl
  | cons p rest ih =>
    intro kv
    simpa [applyDbUpdates, Store.set, pure, Except.pure, bind, Except.bind]
      using ih (Json.dictSet kv p.1 p.2)

/-- C8 (confirmed): for a store without `begin_transaction` (a plain
dict) the command executor applies every entry of `result["db"]`
directly — domain state included — and never raises the
domain-state violation; `is_infrastructure_update` is short-circuited
away by `has_transactions` (`core/command.py` lines 104–105). -/
theorem c8_plain_store_applies_all
    (hndl : Store → Json → Json → Except (PyErr × Store) Store)
    (cmd : String) (result : Json) (kvs updates : List (String × Json))
    (uuids : List String) (timeNow : Json) (wallClock : Int)
    (kv : List (String × Json))
    (h1 : result = .obj kvs)
    (h2 : Json.lookup kvs "db" = some (.obj updates))
    (h3 : Json.lookup kvs "newEvents" = none) :
    run_command_with_tx hndl cmd result uuids timeNow wallClock (.plain kv) =
      .ok (.plain (updates.foldl (fun m p => Json.dictSet m p.1 p.2) kv), result) := by
  subst h1
  simp [run_command_with_tx, runCommandBody, Store.beginIf, Store.hasTransactions,
    h2, h3, applyDbUpdates_plain, bind, Except.bind]

/-- C8 (witness): a concrete plain-dict run where a domain-state write
(`state.messages`) is applied without any violation. -/
theorem c8_plain_store_applies_all_witness :
    run_command_with_tx (fun db _ _ => .ok db) "create"
        (.obj [("db", .obj [("state", .obj [("messages", .arr [.str "hi"])])])])
        [] (.num 1000) 0 (.plain [("state", .obj [])]) =
      .ok (.plain [("state", .obj [("messages", .arr [.str "hi"])])],
        .obj [("db", .obj [("state", .obj [("messages", .arr [.str "hi"])])])]) := by
  have h := c8_plain_store_applies_all (fun db _ _ => .ok db) "create"
    (.obj [("db", .obj [("state", .obj [("messages", .arr [.str "hi"])])])])
    [("db", .obj [("state", .obj [("messages", .arr [.str "hi"])])])]
    [("state", .obj [("messages", .arr [.str "hi"])])]
    [] (.num 1000) 0 [("state", .obj [])] rfl rfl rfl
  rw [h]
  rfl

/-! ## C2: the domain-state violation -/

theorem applyDbUpdates_tx_committed (cmd : String) :
    ∀ (us : List (String × Json)) (c t : List (String × Json)),
      (∀ db' , applyDbUpdates true cmd (.tx ⟨c, some t⟩) us = .ok db' →
        ∃ t', db' = .tx ⟨c, some t'⟩) ∧
      (∀ e dbr, applyDbUpdates true cmd (.tx ⟨c, some t⟩) us = .error (e, dbr) →
        ∃ t', dbr = .tx ⟨c, some t'⟩) := by
  intro us
  induction us with
  | nil =>
    intro c t
    exact ⟨fun db' h => ⟨t, by simpa [applyDbUpdates] using h.symm⟩,
      fun e dbr h => by simp [applyDbUpdates] at h⟩
  | cons p rest ih =>
    intro c t
    constructor
    · intro db' h
      simp only [applyDbUpdates, bind, Except.bind] at h
      rcases hi : is_infrastructure_update p.1 p.2 (.tx ⟨c, some t⟩) with e | b
      · simp [hi] at h
      · rw [hi] at h
        by_cases hb : b = true
        · subst hb
          simp [Store.set, TxStore.set] at h
          exact (ih c (Json.dictSet t p.1 p.2)).1 db' h
        · simp [eq_false_of_ne_true hb, pure, Except.pure, throw, throwThe,
            MonadExceptOf.throw] at h
    · intro e dbr h
      simp only [applyDbUpdates, bind, Except.bind] at h
      rcases hi : is_infrastructure_update p.1 p.2 (.tx ⟨c, some t⟩) with e' | b
      · rw [hi] at h
        simp at h
        exact ⟨t, by simp [h.2.symm]⟩
      · rw [hi] at h
        by_cases hb : b = true
        · subst hb
          simp [Store.set, TxStore.set] at h
          exact (ih c (Json.dictSet t p.1 p.2)).2 e dbr h
        · simp [eq_false_of_ne_true hb, pure, Except.pure, throw, throwThe,
            MonadExceptOf.throw] at h
          exact ⟨t, by simp [h.2.symm]⟩

/-- C2 (counterexample): the claim requires `DomainStateViolation` for
any `result.db` whose diffs are not confined to `state.outgoing`; but a
`db.state.messages` write is accepted and committed whenever `messages`
is absent from the current state, because `is_infrastructure_update`
only compares keys already present (`core/command.py` line 37). -/
theorem c2_domain_state_violation_counterexample :
    run_command_with_tx (fun db _ _ => .ok db) "create"
        (.obj [("db", .obj [("state", .obj [("messages", .arr [.str "hi"])])])])
        [] (.num 1000) 0 (.tx ⟨[("state", .obj [])], none⟩) =
      .ok (.tx ⟨[("state", .obj [("messages", .arr [.str "hi"])])], none⟩,
        .obj [("db", .obj [("state", .obj [("messages", .arr [.str "hi"])])])]) ∧
    (⟨[("state", .obj [("messages", .arr [.str "hi"])])], none⟩ : TxStore) ≠
      ⟨[("state", .obj [])], none⟩ := by
  exact ⟨rfl, by decide⟩

/-- C2 (amended): on a transactional store, the command executor raises
the domain-state `ValueError` (the spec's `DomainStateViolation`) and
leaves the store unchanged (rolled back) exactly when some `result.db`
entry fails `is_infrastructure_update` against the then-current store;
and for a dict-valued `state` update the check rejects only a
non-`outgoing` sub-key that is already present in the current state
with a different value — sub-keys absent from the current state pass. -/
theorem c2_domain_state_violation (s : TxStore)
    (hndl : Store → Json → Json → Except (PyErr × Store) Store)
    (cmd : String) (kvs updates : List (String × Json)) (uuids : List String)
    (timeNow : Json) (wallClock : Int) (err : PyErr × Store)
    (h : s.txn = none)
    (h1 : Json.lookup kvs "db" = some (.obj updates))
    (h2 : applyDbUpdates true cmd (.tx s.begin_transaction) updates = .error err) :
    run_command_with_tx hndl cmd (.obj kvs) uuids timeNow wallClock (.tx s) =
      .error (err.1, .tx s) ∧
    ∀ (items cs : List (String × Json)),
      infraStateLoop (.obj cs) items =
        .ok (items.all (fun p => p.1 == "outgoing" ||
          (match Json.lookup cs p.1 with
           | some cur => Json.pyEq cur p.2
           | none => true))) := by
  constructor
  · obtain ⟨e, dbr⟩ := err
    obtain ⟨t', ht'⟩ := (applyDbUpdates_tx_committed cmd updates s.committed s.committed).2
      e dbr (by simpa [TxStore.begin_transaction] using h2)
    subst ht'
    obtain ⟨c, txn⟩ := s
    subst h
    simp [run_command_with_tx, runCommandBody, Store.beginIf, Store.hasTransactions,
      h1, h2, bind, Except.bind, TxStore.rollback]
  · intro items
    induction items with
    | nil => intro cs; rfl
    | cons p rest ih =>
      intro cs
      by_cases ho : p.1 = "outgoing"
      · simp [infraStateLoop, ho, ih cs]
      · rcases hl : Json.lookup cs p.1 with _ | cur
        · have hmem : Json.dictHas cs p.1 = false := by
            simp [Json.dictHas, hl]
          simp [infraStateLoop, ho, pyContains, hmem, hl, ih cs, bind, Except.bind]
        · have hmem : Json.dictHas cs p.1 = true := by
            simp [Json.dictHas, hl]
          by_cases he : Json.pyEq cur p.2 = true
          · simp [infraStateLoop, ho, pyContains, hmem, pySubscript, hl, he, ih cs,
              bind, Except.bind]
          · simp [infraStateLoop, ho, pyContains, hmem, pySubscript, hl,
              eq_false_of_ne_true he, bind, Except.bind]

/-- C2 (witness): a concrete violating update — `state.messages`
already present with a different value — raises and rolls back. -/
theorem c2_domain_state_violation_witness :
    run_command_with_tx (fun db _ _ => .ok db) "create"
        (.obj [("db", .obj [("state", .obj [("messages", .str "new")])])])
        [] (.num 1000) 0 (.tx ⟨[("state", .obj [("messages", .str "old")])], none⟩) =
      .error (.valueError ("Command create attempted to modify domain state state" ++
          ". Domain state must be modified through events."),
        .tx ⟨[("state", .obj [("messages", .str "old")])], none⟩) ∧
    infraStateLoop (.obj [("messages", .str "old")]) [("messages", .str "new")] =
      .ok false := by
  have h := c2_domain_state_violation ⟨[("state", .obj [("messages", .str "old")])], none⟩
    (fun db _ _ => .ok db) "create"
    [("db", .obj [("state", .obj [("messages", .str "new")])])]
    [("state", .obj [("messages", .str "new")])]
    [] (.num 1000) 0
    ((.valueError ("Command create attempted to modify domain state state" ++
        ". Domain state must be modified through events.")),
      .tx ⟨[("state", .obj [("messages", .str "old")])],
        some [("state", .obj [("messages", .str "old")])]⟩)
    rfl rfl (by rfl)
  refine ⟨h.1, ?_⟩
  rw [h.2 [("messages", .str "new")] [("messages", .str "old")]]
  rfl

/-- C4 (witness): the three selector cases at concrete inputs. -/
theorem c4_event_id_selection_witness :
    ensure_event_id (.obj [("eventId", .str "E1")]) (.obj [("id", .str "D1")]) "u" = "E1" ∧
    ensure_event_id (.obj []) (.obj [("id", .str "D1")]) "u" = "D1" ∧
    ensure_event_id (.obj []) (.obj []) "u" = "u" := by
  refine ⟨?_, ?_, ?_⟩
  · exact (c4_event_id_selection (.obj [("eventId", .str "E1")])
      (.obj [("id", .str "D1")]) "u").1 [("eventId", .str "E1")] (.str "E1")
      rfl rfl (by decide)
  · exact ((c4_event_id_selection (.obj []) (.obj [("id", .str "D1")]) "u").2.1
      (by intro v hv; simp [Json.lookup] at hv)).1 [("id", .str "D1")] (.str "D1")
      rfl rfl (by decide)
  · exact ((c4_event_id_selection (.obj []) (.obj []) "u").2.1
      (by intro v hv; simp [Json.lookup] at hv)).2
      (by intro w hw; simp [Json.lookup] at hw)

/-! ## C10: greedy decrypt is total on malformed blobs -/

/-- C10 (confirmed): a raw blob (a dict) that does not already have the
`envelope`/`data`/`metadata` shape and whose `data` field is absent or
a string shorter than 64 characters is dropped: `greedy_decrypt`
returns `None` without raising (`core/greedy_decrypt.py` lines
5–31). -/
theorem c10_greedy_decrypt_total_on_malformed
    (mode : CryptoMode) (loads : String → Option Json) (db : Store) (ident : Json)
    (kvs : List (String × Json))
    (hshape : ¬(Json.dictHas kvs "envelope" = true ∧ Json.dictHas kvs "data" = true ∧
      Json.dictHas kvs "metadata" = true))
    (hdata : Json.lookup kvs "data" = none ∨
      ∃ s : String, Json.lookup kvs "data" = some (.str s) ∧ s.data.length < 64) :
    greedy_decrypt mode loads (.obj kvs) db ident = .ok none := by
  rcases hdata with hnone | ⟨s, hs, hlen⟩
  · have hd : Json.dictHas kvs "data" = false := by simp [Json.dictHas, hnone]
    by_cases he : Json.dictHas kvs "envelope" = true
    · simp [greedy_decrypt, pyContains, pyGetD, he, hd, bind, Except.bind,
        pure, Except.pure]
    · simp [greedy_decrypt, pyContains, pyGetD, eq_false_of_ne_true he, hd,
        bind, Except.bind, pure, Except.pure]
  · have hd : Json.dictHas kvs "data" = true := by simp [Json.dictHas, hs]
    have hlen' : ¬(64 ≤ s.length) := by
      have hl : s.length = s.data.length := rfl
      omega
    by_cases he : Json.dictHas kvs "envelope" = true
    · have hm : Json.dictHas kvs "metadata" = false := by
        rcases hmm : Json.dictHas kvs "metadata" with _ | _
        · rfl
        · exact absurd ⟨he, hd, hmm⟩ hshape
      simp [greedy_decrypt, pyContains, pyGetD, pySubscript, pyLen, he, hd, hm,
        hs, hlen, hlen', bind, Except.bind, pure, Except.pure]
    · simp [greedy_decrypt, pyContains, pyGetD, pySubscript, pyLen,
        eq_false_of_ne_true he, hd, hs, hlen, hlen', bind, Except.bind, pure,
        Except.pure]

/-- C10 (witness): a short junk blob is dropped. -/
theorem c10_greedy_decrypt_total_on_malformed_witness :
    greedy_decrypt .dummy (fun _ => none) (.obj [("data", .str "junk")])
      (.plain []) .null = .ok none := by
  exact c10_greedy_decrypt_total_on_malformed .dummy (fun _ => none) (.plain [])
    .null [("data", .str "junk")] (by decide)
    (Or.inr ⟨"junk", rfl, by decide⟩)

/-! ## C7: symmetric encryption round-trip -/

theorem char_toNat_ofNat (n : Nat) (h : n.isValidChar) :
    (Char.ofNat n).toNat = n := by
  simp [Char.ofNat, dif_pos h, Char.ofNatAux, Char.toNat, UInt32.toNat,
    BitVec.toNat_ofNatLt]

theorem utf8EncodeChar_ofNat_one (b : Nat) (hb : b < 128) :
    utf8EncodeChar (Char.ofNat b) = [b] := by
  have hv : b.isValidChar := Or.inl (by omega)
  simp [utf8EncodeChar, char_toNat_ofNat b hv, hb]

theorem utf8EncodeChar_ofNat_two (b c : Nat) (hb1 : ¬b < 0xC2) (hb2 : b < 0xE0)
    (hc : 0x80 ≤ c ∧ c < 0xC0) :
    utf8EncodeChar (Char.ofNat ((b - 0xC0) * 64 + (c - 0x80))) = [b, c] := by
  have hv : ((b - 0xC0) * 64 + (c - 0x80)).isValidChar := Or.inl (by omega)
  have h1 : ¬((b - 0xC0) * 64 + (c - 0x80) < 0x80) := by omega
  have h2 : (b - 0xC0) * 64 + (c - 0x80) < 0x800 := by omega
  simp [utf8EncodeChar, char_toNat_ofNat _ hv, h1, h2]
  constructor <;> omega

theorem utf8EncodeChar_ofNat_three (b c d : Nat) (hb1 : ¬b < 0xE0) (hb2 : b < 0xF0)
    (hc : if b = 0xE0 then 0xA0 ≤ c ∧ c < 0xC0
      else if b = 0xED then 0x80 ≤ c ∧ c < 0xA0 else 0x80 ≤ c ∧ c < 0xC0)
    (hd : 0x80 ≤ d ∧ d < 0xC0) :
    utf8EncodeChar (Char.ofNat ((b - 0xE0) * 4096 + (c - 0x80) * 64 + (d - 0x80))) =
      [b, c, d] := by
  have hcs : (0x80 ≤ c ∧ c < 0xC0) ∧ (b = 0xE0 → 0xA0 ≤ c) ∧ (b = 0xED → c < 0xA0) := by
    split_ifs at hc with h1 h2
    · exact ⟨⟨by omega, hc.2⟩, fun _ => hc.1, fun h => by omega⟩
    · exact ⟨⟨hc.1, by omega⟩, fun h => by omega, fun _ => hc.2⟩
    · exact ⟨hc, fun h => absurd h h1, fun h => absurd h h2⟩
  obtain ⟨hcr, hc0, hcd⟩ := hcs
  have hv : ((b - 0xE0) * 4096 + (c - 0x80) * 64 + (d - 0x80)).isValidChar := by
    simp only [Nat.isValidChar]
    omega
  have h1 : ¬((b - 0xE0) * 4096 + (c - 0x80) * 64 + (d - 0x80) < 0x80) := by omega
  have h2 : ¬((b - 0xE0) * 4096 + (c - 0x80) * 64 + (d - 0x80) < 0x800) := by omega
  have h3 : (b - 0xE0) * 4096 + (c - 0x80) * 64 + (d - 0x80) < 0x10000 := by omega
  simp [utf8EncodeChar, char_toNat_ofNat _ hv, h1, h2, h3]
  refine ⟨by omega, by omega, by omega⟩

theorem utf8EncodeChar_ofNat_four (b c d e : Nat) (hb1 : ¬b < 0xF0) (hb2 : b < 0xF5)
    (hc : if b = 0xF0 then 0x90 ≤ c ∧ c < 0xC0
      else if b = 0xF4 then 0x80 ≤ c ∧ c < 0x90 else 0x80 ≤ c ∧ c < 0xC0)
    (hd : 0x80 ≤ d ∧ d < 0xC0) (he : 0x80 ≤ e ∧ e < 0xC0) :
    utf8EncodeChar (Char.ofNat ((b - 0xF0) * 0x40000 + (c - 0x80) * 4096 +
      (d - 0x80) * 64 + (e - 0x80))) = [b, c, d, e] := by
  have hcs : (0x80 ≤ c ∧ c < 0xC0) ∧ (b = 0xF0 → 0x90 ≤ c) ∧ (b = 0xF4 → c < 0x90) := by
    split_ifs at hc with h1 h2
    · exact ⟨⟨by omega, hc.2⟩, fun _ => hc.1, fun h => by omega⟩
    · exact ⟨⟨hc.1, by omega⟩, fun h => by omega, fun _ => hc.2⟩
    · exact ⟨hc, fun h => absurd h h1, fun h => absurd h h2⟩
  obtain ⟨hcr, hc0, hc4⟩ := hcs
  have hv : ((b - 0xF0) * 0x40000 + (c - 0x80) * 4096 + (d - 0x80) * 64 +
      (e - 0x80)).isValidChar := by
    simp only [Nat.isValidChar]
    omega
  have h1 : ¬((b - 0xF0) * 0x40000 + (c - 0x80) * 4096 + (d - 0x80) * 64 +
      (e - 0x80) < 0x80) := by omega
  have h2 : ¬((b - 0xF0) * 0x40000 + (c - 0x80) * 4096 + (d - 0x80) * 64 +
      (e - 0x80) < 0x800) := by omega
  have h3 : ¬((b - 0xF0) * 0x40000 + (c - 0x80) * 4096 + (d - 0x80) * 64 +
      (e - 0x80) < 0x10000) := by omega
  simp [utf8EncodeChar, char_toNat_ofNat _ hv, h1, h2, h3]
  refine ⟨by omega, by omega, by omega, by omega⟩

theorem utf8DecodeOne_sound (b : Nat) (rest : List Nat) (cp : Char)
    (rest' : List Nat) (h : utf8DecodeOne b rest = some (cp, rest')) :
    utf8EncodeChar cp ++ rest' = b :: rest := by
  unfold utf8DecodeOne at h
  by_cases hb1 : b < 0x80
  · simp only [hb1, if_true, if_false, and_true, true_and, and_self,
      Option.some.injEq, Prod.mk.injEq] at h
    obtain ⟨hcp, hr⟩ := h
    subst hcp
    subst hr
    simp [utf8EncodeChar_ofNat_one b hb1]
  · by_cases hb2 : b < 0xC2
    · simp [hb1, hb2] at h
    · by_cases hb3 : b < 0xE0
      · rcases rest with _ | ⟨c, rest1⟩
        · simp [hb1, hb2, hb3] at h
        · by_cases hg : 0x80 ≤ c ∧ c < 0xC0
          · simp only [hb1, hb2, hb3, hg, if_true, if_false, and_true, true_and,
              and_self, Option.some.injEq, Prod.mk.injEq] at h
            obtain ⟨hcp, hr⟩ := h
            subst hcp
            subst hr
            simp [utf8EncodeChar_ofNat_two b c hb2 hb3 hg]
          · simp [hb1, hb2, hb3, hg] at h
      · by_cases hb4 : b < 0xF0
        · rcases rest with _ | ⟨c, _ | ⟨d, rest1⟩⟩
          · simp [hb1, hb2, hb3, hb4] at h
          · simp [hb1, hb2, hb3, hb4] at h
          · by_cases hg : (if b = 0xE0 then 0xA0 ≤ c ∧ c < 0xC0
                else if b = 0xED then 0x80 ≤ c ∧ c < 0xA0
                else 0x80 ≤ c ∧ c < 0xC0) ∧ 0x80 ≤ d ∧ d < 0xC0
            · simp only [hb1, hb2, hb3, hb4, hg, if_true, if_false, and_true,
                true_and, and_self, Option.some.injEq, Prod.mk.injEq] at h
              obtain ⟨hcp, hr⟩ := h
              subst hcp
              subst hr
              simp [utf8EncodeChar_ofNat_three b c d hb3 hb4 hg.1 hg.2]
            · simp [hb1, hb2, hb3, hb4, hg] at h
        · by_cases hb5 : b < 0xF5
          · rcases rest with _ | ⟨c, _ | ⟨d, _ | ⟨e, rest1⟩⟩⟩
            · simp [hb1, hb2, hb3, hb4, hb5] at h
            · simp [hb1, hb2, hb3, hb4, hb5] at h
            · simp [hb1, hb2, hb3, hb4, hb5] at h
            · by_cases hg : (if b = 0xF0 then 0x90 ≤ c ∧ c < 0xC0
                  else if b = 0xF4 then 0x80 ≤ c ∧ c < 0x90
                  else 0x80 ≤ c ∧ c < 0xC0) ∧ 0x80 ≤ d ∧ d < 0xC0 ∧
                  0x80 ≤ e ∧ e < 0xC0
              · simp only [hb1, hb2, hb3, hb4, hb5, hg, if_true, if_false,
                  and_true, true_and, and_self, Option.some.injEq,
                  Prod.mk.injEq] at h
                obtain ⟨hcp, hr⟩ := h
                subst hcp
                subst hr
                simp [utf8EncodeChar_ofNat_four b c d e hb4 hb5 hg.1 ⟨hg.2.1, hg.2.2.1⟩ hg.2.2.2]
              · simp [hb1, hb2, hb3, hb4, hb5, hg] at h
          · simp [hb1, hb2, hb3, hb4, hb5] at h

theorem utf8DecodeF_encode :
    ∀ (n : Nat) (bs : List Nat) (cs : List Char), utf8DecodeF n bs = some cs →
      (cs.map utf8EncodeChar).flatten = bs := by
  intro n
  induction n with
  | zero =>
    intro bs cs h
    cases bs with
    | nil =>
      simp only [utf8DecodeF, Option.some.injEq] at h
      simp [h.symm]
    | cons b rest => simp [utf8DecodeF] at h
  | succ n ih =>
    intro bs cs h
    cases bs with
    | nil =>
      simp only [utf8DecodeF, Option.some.injEq] at h
      simp [h.symm]
    | cons b rest =>
      simp only [utf8DecodeF] at h
      rcases ho : utf8DecodeOne b rest with _ | ⟨cp, rest'⟩
      · simp only [ho] at h
        exact absurd h (by simp)
      · simp only [ho] at h
        rcases hf : utf8DecodeF n rest' with _ | cs'
        · simp only [hf] at h
          exact absurd h (by simp)
        · simp only [hf, Option.some.injEq] at h
          subst h
          have henc := utf8DecodeOne_sound b rest cp rest' ho
          simp [← henc, ih rest' cs' hf]

/-- Decoded bytes re-encode to themselves: `s.encode()` is a left
inverse of `bytes.decode()`. -/
theorem utf8Decode_encode (bs : List Nat) (cs : List Char)
    (h : utf8Decode bs = some cs) : strBytes (String.mk cs) = bs :=
  utf8DecodeF_encode bs.length bs cs h


theorem hexDigVal_hexDig (d : Nat) (h : d < 16) : hexDigVal (hexDig d) = some d := by
  interval_cases d <;> decide

theorem hexCharsToBytes_encode :
    ∀ (bs : List Nat), bytesValid bs = true →
      hexCharsToBytes ((bs.map byteToHexChars).flatten) = some bs := by
  intro bs
  induction bs with
  | nil => intro _; rfl
  | cons b rest ih =>
    intro h
    simp only [bytesValid, List.all_cons, Bool.and_eq_true, decide_eq_true_eq] at h
    obtain ⟨hb, hrest⟩ := h
    have h3 : hexCharsToBytes ((rest.map byteToHexChars).flatten) = some rest :=
      ih (by simpa [bytesValid] using hrest)
    have h1 : hexDigVal (hexDig (b / 16)) = some (b / 16) :=
      hexDigVal_hexDig _ (by omega)
    have h2 : hexDigVal (hexDig (b % 16)) = some (b % 16) :=
      hexDigVal_hexDig _ (by omega)
    have hval : 16 * (b / 16) + b % 16 = b := by omega
    simp only [List.map_cons, List.flatten_cons, byteToHexChars, List.cons_append,
      List.nil_append, hexCharsToBytes, h1, h2, h3]
    simp [bind, Option.bind, hval, h3]

theorem hexToBytes_bytesToHex (bs : List Nat) (h : bytesValid bs = true) :
    hexToBytes (bytesToHex bs) = some bs := by
  simpa [hexToBytes, bytesToHex] using hexCharsToBytes_encode bs h

theorem blake2b_F_length (h m : List Nat) (t : Nat) (f : Bool) :
    (BLAKE2b.F h m t f).length = 8 := by
  simp [BLAKE2b.F]

theorem blake2b_foldBlocks_length (ll : Nat) :
    ∀ (blocks : List (List Nat)) (h : List Nat) (i : Nat), h.length = 8 →
      (BLAKE2b.foldBlocks ll h blocks i).length = 8 := by
  intro blocks
  induction blocks with
  | nil => intro h i hh; simpa [BLAKE2b.foldBlocks] using hh
  | cons b rest ih =>
    intro h i hh
    cases rest with
    | nil => simp [BLAKE2b.foldBlocks, blake2b_F_length]
    | cons b2 rest2 =>
      simp only [BLAKE2b.foldBlocks]
      exact ih (BLAKE2b.F h b ((i + 1) * 128) false) (i + 1) (blake2b_F_length _ _ _ _)

theorem flatten_map_le8_length :
    ∀ (l : List Nat), ((l.map BLAKE2b.wordToBytesLE).flatten).length = 8 * l.length := by
  intro l
  induction l with
  | nil => rfl
  | cons w rest ih =>
    simp only [List.map_cons, List.flatten_cons, List.length_append, ih,
      BLAKE2b.wordToBytesLE, List.length_cons, List.length_nil, List.length_map]
    omega

theorem blake2b_digest_length (nn : Nat) (msg : List Nat) (h : nn ≤ 64) :
    (BLAKE2b.digest nn msg).length = nn := by
  unfold BLAKE2b.digest
  rw [List.length_take, flatten_map_le8_length,
    blake2b_foldBlocks_length _ _ _ _ (by simp [BLAKE2b.IV])]
  omega

theorem blake2b_digest_valid (nn : Nat) (msg : List Nat) :
    bytesValid (BLAKE2b.digest nn msg) = true := by
  simp only [bytesValid, List.all_eq_true, decide_eq_true_eq]
  intro x hx
  unfold BLAKE2b.digest at hx
  have hx' := List.mem_of_mem_take hx
  obtain ⟨l, hl, hxl⟩ := List.mem_flatten.1 hx'
  obtain ⟨w, _, hw⟩ := List.mem_map.1 hl
  subst hw
  simp only [BLAKE2b.wordToBytesLE, List.mem_cons, List.not_mem_nil, or_false] at hxl
  rcases hxl with h | h | h | h | h | h | h | h <;> subst h <;>
    exact Nat.mod_lt _ (by omega)

theorem keystream_length (key nonce : List Nat) (len : Nat) :
    (secretboxKeystream key nonce len).length = len := by
  unfold secretboxKeystream
  rw [List.length_take]
  have hlen : ∀ (is : List Nat),
      ((is.map (fun i => BLAKE2b.digest 64 (key ++ nonce ++
        BLAKE2b.wordToBytesLE i))).flatten).length = 64 * is.length := by
    intro is
    induction is with
    | nil => rfl
    | cons i rest ih =>
      simp only [List.map_cons, List.flatten_cons, List.length_append, ih,
        blake2b_digest_length 64 _ le_rfl, List.length_cons]
      omega
  rw [hlen, List.length_range]
  have := Nat.div_add_mod (len + 63) 64
  have h2 : (len + 63) % 64 < 64 := Nat.mod_lt _ (by omega)
  omega

theorem keystream_valid (key nonce : List Nat) (len : Nat) :
    bytesValid (secretboxKeystream key nonce len) = true := by
  simp only [bytesValid, List.all_eq_true, decide_eq_true_eq]
  intro x hx
  unfold secretboxKeystream at hx
  have hx' := List.mem_of_mem_take hx
  obtain ⟨l, hl, hxl⟩ := List.mem_flatten.1 hx'
  obtain ⟨w, _, hw⟩ := List.mem_map.1 hl
  subst hw
  have := blake2b_digest_valid 64 (key ++ nonce ++ BLAKE2b.wordToBytesLE w)
  simp only [bytesValid, List.all_eq_true, decide_eq_true_eq] at this
  exact this x hxl

theorem mem_zipWith_xor :
    ∀ (a b : List Nat) (x : Nat), x ∈ List.zipWith Nat.xor a b →
      ∃ p q, p ∈ a ∧ q ∈ b ∧ x = p ^^^ q := by
  intro a
  induction a with
  | nil => intro b x hx; simp at hx
  | cons p ps ih =>
    intro b x hx
    cases b with
    | nil => simp at hx
    | cons q qs =>
      simp only [List.zipWith_cons_cons, List.mem_cons] at hx
      rcases hx with hx | hx
      · exact ⟨p, q, List.mem_cons_self _ _, List.mem_cons_self _ _, hx⟩
      · obtain ⟨p', q', hp', hq', he⟩ := ih qs x hx
        exact ⟨p', q', List.mem_cons_of_mem _ hp', List.mem_cons_of_mem _ hq', he⟩

theorem zipWith_xor_valid (a b : List Nat) (ha : bytesValid a = true)
    (hb : bytesValid b = true) :
    bytesValid (List.zipWith Nat.xor a b) = true := by
  simp only [bytesValid, List.all_eq_true, decide_eq_true_eq] at ha hb ⊢
  intro x hx
  obtain ⟨p, q, hp, hq, hpq⟩ := mem_zipWith_xor a b x hx
  subst hpq
  have h1 : p < 2 ^ 8 := ha p hp
  have h2 : q < 2 ^ 8 := hb q hq
  exact Nat.xor_lt_two_pow h1 h2

theorem zipWith_xor_cancel :
    ∀ (a b : List Nat), b.length = a.length →
      List.zipWith Nat.xor (List.zipWith Nat.xor a b) b = a := by
  intro a
  induction a with
  | nil => intro b _; simp
  | cons x xs ih =>
    intro b hb
    cases b with
    | nil => simp at hb
    | cons y ys =>
      simp only [List.zipWith_cons_cons, List.cons.injEq]
      refine ⟨Nat.xor_cancel_right y x, ih ys (by simpa using hb)⟩

/-- The round trip of the claim:
`decrypt(encrypt(m,k).ciphertext, encrypt(m,k).nonce, k)`. -/
def symRoundTrip (mode : CryptoMode) (nonce : List Nat) (key m : PyData) :
    Option (List Nat) :=
  match encrypt mode nonce m key with
  | .ok e => decrypt mode e.ciphertext e.nonce key
  | .error _ => none

/-- C7 (counterexample): in dummy mode `encrypt` calls `data.decode()`,
which raises `UnicodeDecodeError` on the single byte `0xFF`; the round
trip therefore does not return the message, contradicting the claim for
all messages in both modes. -/
theorem c7_crypto_roundtrip_counterexample :
    symRoundTrip .dummy [] (.bytes []) (.bytes [255]) = none ∧
    symRoundTrip .dummy [] (.bytes []) (.bytes [255]) ≠ some [255] := by
  exact ⟨by decide, by decide⟩

/-- C7 (amended): the symmetric round trip
`decrypt(encrypt(m,k).ciphertext, encrypt(m,k).nonce, k) = m` holds in
real mode for every byte message, byte key and 24-byte nonce (the
SecretBox itself is modelled from the spec, the hex plumbing and key
derivation are from the source), and in dummy mode exactly for the
messages whose bytes decode as UTF-8 (for any key, which dummy mode
ignores). -/
theorem c7_crypto_roundtrip (m k nonce : List Nat) :
    (bytesValid m = true → bytesValid k = true → bytesValid nonce = true →
      nonce.length = 24 →
      symRoundTrip .real nonce (.bytes k) (.bytes m) = some m) ∧
    (∀ cs, utf8Decode m = some cs →
      ∀ key : PyData, symRoundTrip .dummy nonce key (.bytes m) = some m) := by
  constructor
  · intro hm hk hn hlen
    unfold symRoundTrip
    simp only [encrypt, PyData.toBytes, prepareKey, bind, Except.bind]
    set K := if k.length = 32 then k else BLAKE2b.digest 32 k with hK
    have hKvalid : bytesValid K = true := by
      rw [hK]
      split
      · exact hk
      · exact blake2b_digest_valid 32 k
    simp only [secretboxCipher]
    set KS := secretboxKeystream K nonce m.length with hKS
    set cipher := List.zipWith Nat.xor m KS with hcipher
    set tag := secretboxTag K nonce cipher with htag
    have hKSlen : KS.length = m.length := keystream_length K nonce m.length
    have hcipherlen : cipher.length = m.length := by
      rw [hcipher, List.length_zipWith, hKSlen]
      omega
    have htaglen : tag.length = 16 := by
      rw [htag]
      exact blake2b_digest_length 16 _ (by omega)
    have hctvalid : bytesValid (tag ++ cipher) = true := by
      have h1 : bytesValid tag = true := by
        rw [htag]
        exact blake2b_digest_valid 16 _
      have h2 : bytesValid cipher = true :=
        zipWith_xor_valid m KS hm (keystream_valid K nonce m.length)
      simp only [bytesValid, List.all_append, Bool.and_eq_true] at h1 h2 ⊢
      exact ⟨h1, h2⟩
    simp only [decrypt, prepareKey, ← hK, hexToBytes_bytesToHex _ hctvalid,
      hexToBytes_bytesToHex _ hn]
    rw [List.take_left' hlen, List.drop_left' hlen]
    have htake : (tag ++ cipher).take 16 = tag := List.take_left' htaglen
    have hdrop : (tag ++ cipher).drop 16 = cipher := List.drop_left' htaglen
    have hcond : 16 ≤ (tag ++ cipher).length ∧
        (tag ++ cipher).take 16 = secretboxTag K nonce ((tag ++ cipher).drop 16) := by
      refine ⟨by simp [htaglen], ?_⟩
      rw [htake, hdrop, htag]
    simp only [secretboxOpen, hdrop, hcipherlen, ← hKS]
    rw [hcipher, zipWith_xor_cancel m KS hKSlen, if_pos]
    constructor
    · rw [← hcipher, List.length_append, htaglen]
      omega
    · rw [← hcipher, htake, htag]
  · intro cs hcs key
    unfold symRoundTrip
    simp only [encrypt, PyData.toBytes, hcs]
    have hsw : pyStartsWith ("dummy_encrypted_" ++ String.mk cs)
        "dummy_encrypted_" = true := by
      simp [pyStartsWith, String.data_append]
    have hdrop : pyDrop ("dummy_encrypted_" ++ String.mk cs) 16 = String.mk cs := by
      simp only [pyDrop, String.data_append]
      have h16 : ("dummy_encrypted_".data).length = 16 := rfl
      rw [List.drop_left' h16]
    simp only [decrypt, hsw, if_pos, hdrop, Option.some.injEq]
    exact utf8Decode_encode m cs hcs

/-- C7 (witness): a concrete real-mode round trip with a 32-byte key
and 24-byte nonce, and a concrete dummy-mode round trip on ASCII
bytes. -/
theorem c7_crypto_roundtrip_witness :
    symRoundTrip .real (List.replicate 24 0) (.bytes (List.replicate 32 7))
      (.bytes [104, 105]) = some [104, 105] ∧
    symRoundTrip .dummy [] (.bytes []) (.bytes [104, 105]) = some [104, 105] := by
  constructor
  · exact (c7_crypto_roundtrip [104, 105] (List.replicate 32 7)
      (List.replicate 24 0)).1 (by decide) (by decide) (by decide) (by decide)
  · exact (c7_crypto_roundtrip [104, 105] [] []).2 ['h', 'i'] (by decide) (.bytes [])

/-! ## C3: projection idempotence -/

/-- C3 (counterexample): projecting the blocked add `c3env` (unknown
group `g1`) twice appends the envelope to `eventStore` and the marker
to `blocked_by_id.g1` twice, so `project(project(db,E),E)` differs from
`project(db,E)`. -/
theorem c3_projection_idempotence_counterexample :
    addProject c3db c3env = .ok c3db1 ∧
    addProject c3db1 c3env = .ok c3db2 ∧
    c3db1 ≠ c3db2 :=
  ⟨rfl, rfl, by decide⟩

/-- A successful monadic bind factors through a successful first step. -/
theorem except_bind_ok {ε α β : Type} (x : Except ε α) (f : α → Except ε β)
    (b : β) (h : x >>= f = .ok b) : ∃ a, x = .ok a ∧ f a = .ok b := by
  cases x with
  | ok a => exact ⟨a, rfl, h⟩
  | error e => exact absurd h (by simp [Bind.bind, Except.bind])

/-- `lookup` finds the key just set. -/
theorem Json.lookup_dictSet_self (d : List (String × Json)) (k : String)
    (v : Json) : Json.lookup (Json.dictSet d k v) k = some v := by
  induction d with
  | nil => simp [Json.dictSet, Json.lookup]
  | cons hd tl ih =>
    obtain ⟨k2, v2⟩ := hd
    by_cases h : k2 = k
    · simp [Json.dictSet, h, Json.lookup]
    · simp [Json.dictSet, h, Json.lookup, ih]

/-- `lookup` at another key is unchanged by `dictSet`. -/
theorem Json.lookup_dictSet_ne (d : List (String × Json)) (k k2 : String)
    (v : Json) (h : k ≠ k2) :
    Json.lookup (Json.dictSet d k v) k2 = Json.lookup d k2 := by
  induction d with
  | nil =>
    simp only [Json.dictSet, Json.lookup]
    rw [if_neg h]
  | cons hd tl ih =>
    obtain ⟨k3, v3⟩ := hd
    simp only [Json.dictSet]
    by_cases h3 : k3 = k
    · rw [if_pos h3]
      subst h3
      simp only [Json.lookup]
      rw [if_neg h, if_neg h]
    · rw [if_neg h3]
      simp only [Json.lookup]
      by_cases h4 : k3 = k2
      · rw [if_pos h4, if_pos h4]
      · rw [if_neg h4, if_neg h4, ih]

/-- Setting the same key twice keeps only the second write. -/
theorem Json.dictSet_dictSet (d : List (String × Json)) (k : String)
    (v w : Json) :
    Json.dictSet (Json.dictSet d k v) k w = Json.dictSet d k w := by
  induction d with
  | nil => simp [Json.dictSet]
  | cons hd tl ih =>
    obtain ⟨k2, v2⟩ := hd
    by_cases h : k2 = k
    · subst h
      simp [Json.dictSet]
    · simp [Json.dictSet, h, ih]

/-- Membership through `stableInsert`. -/
theorem mem_stableInsert {α : Type} (lt : α → α → Bool) (x y : α)
    (l : List α) : y ∈ stableInsert lt x l ↔ y = x ∨ y ∈ l := by
  induction l with
  | nil => simp [stableInsert]
  | cons z zs ih =>
    by_cases hlt : lt z x = true
    · simp only [stableInsert]
      rw [if_pos hlt]
      simp only [List.mem_cons, ih]
      tauto
    · simp only [stableInsert]
      rw [if_neg hlt]
      simp [List.mem_cons]

/-- `stableSort` preserves membership. -/
theorem mem_stableSort {α : Type} (lt : α → α → Bool) (y : α) (l : List α) :
    y ∈ stableSort lt l ↔ y ∈ l := by
  induction l with
  | nil => simp [stableSort]
  | cons x xs ih => simp [stableSort, mem_stableInsert, ih]

/-- A successful `sortAddsById` permutes its input (membership view). -/
theorem sortAddsById_mem (items sorted : List Json)
    (h : sortAddsById items = .ok sorted) (x : Json) :
    x ∈ sorted ↔ x ∈ items := by
  unfold sortAddsById at h
  obtain ⟨keys, hk, h2⟩ := except_bind_ok _ _ _ h
  by_cases h3 : keys.all (fun v => match v with | .str _ => true | _ => false) = true
  · rw [if_pos h3] at h2
    have h5 := Except.ok.inj h2
    rw [← h5]
    exact mem_stableSort _ _ _
  · rw [if_neg h3] at h2
    by_cases h4 : keys.all (fun v => match v with | .num _ => true | _ => false) = true
    · rw [if_pos h4] at h2
      have h5 := Except.ok.inj h2
      rw [← h5]
      exact mem_stableSort _ _ _
    · rw [if_neg h4] at h2
      exact Except.noConfusion h2

/-- A duplicate scan that ran to the end saw only dict entries. -/
theorem addsContainId_false_all_obj (a : Json) (l : List Json)
    (h : addsContainId a l = .ok false) :
    ∀ x ∈ l, ∃ kvs, x = Json.obj kvs := by
  induction l with
  | nil => intro x hx; cases hx
  | cons y ys ih =>
    intro x hx
    cases y with
    | obj kvs =>
      simp only [addsContainId] at h
      rcases hp : Json.pyEq ((Json.lookup kvs "id").getD Json.null) a with _ | _
      · rw [hp] at h
        simp only [Bool.false_eq_true, if_false] at h
        cases hx with
        | head => exact ⟨kvs, rfl⟩
        | tail _ hmem => exact ih h x hmem
      · rw [hp] at h
        simp at h
    | null => simp [addsContainId] at h
    | bool b => simp [addsContainId] at h
    | num n => simp [addsContainId] at h
    | str s => simp [addsContainId] at h
    | arr xs => simp [addsContainId] at h

/-- The duplicate scan succeeds when the list holds only dict entries,
one of which carries the id. -/
theorem addsContainId_true_of_mem (a : Json) (l : List Json)
    (hall : ∀ x ∈ l, ∃ kvs, x = Json.obj kvs)
    (kvs0 : List (String × Json)) (hmem : Json.obj kvs0 ∈ l)
    (hid : Json.pyEq ((Json.lookup kvs0 "id").getD Json.null) a = true) :
    addsContainId a l = .ok true := by
  induction l with
  | nil => cases hmem
  | cons y ys ih =>
    obtain ⟨kvs1, rfl⟩ := hall y (List.mem_cons_self y ys)
    simp only [addsContainId]
    rcases hp : Json.pyEq ((Json.lookup kvs1 "id").getD Json.null) a with _ | _
    · simp only [Bool.false_eq_true, if_false]
      cases hmem with
      | head => rw [hid] at hp; cases hp
      | tail _ hmem2 =>
        exact ih (fun x hx => hall x (List.mem_cons_of_mem _ hx)) hmem2
    · simp

/-- C3 (amended): projection of an accepted add envelope is idempotent.
If the store has `state` with an `adds` list, the envelope is an add
whose five fields are truthy strings, the signer is known, the add id
is not yet recorded, its group/user/adder exist and no blocked marker
waits on the id, then a second projection of the same envelope finds
the id in `adds` (duplicate check) and returns the store of the first
projection unchanged.  (Blocked envelopes are not idempotent: see the
counterexample.) -/
theorem c3_projection_idempotence
    (db db1 : List (String × Json)) (env data : Json)
    (skvs bkvs : List (String × Json))
    (l gl ul sorted es : List Json)
    (aid g u a s : String)
    (hstate : Json.lookup db "state" = some (.obj skvs))
    (hadds : Json.lookup skvs "adds" = some (.arr l))
    (hdata : pyGetD env "data" (.obj []) = .ok data)
    (hdtype : pyGetD data "type" .null = .ok (.str "add"))
    (hid : pyGetD data "id" .null = .ok (.str aid))
    (hgid : pyGetD data "group_id" .null = .ok (.str g))
    (huid : pyGetD data "user_id" .null = .ok (.str u))
    (haby : pyGetD data "added_by" .null = .ok (.str a))
    (hsg : pyGetD data "signature" .null = .ok (.str s))
    (htid : Json.pyTruthy (.str aid) = true)
    (htg : Json.pyTruthy (.str g) = true)
    (htu : Json.pyTruthy (.str u) = true)
    (hta : Json.pyTruthy (.str a) = true)
    (hts : Json.pyTruthy (.str s) = true)
    (hsu : pyStartsWith s "dummy_sig_from_unknown" = false)
    (hdup : addsContainId (.str aid) l = .ok false)
    (hgroups : (Json.lookup skvs "groups").getD (.arr []) = .arr gl)
    (hgex : listHasId (.str g) gl = .ok true)
    (husers : (Json.lookup skvs "users").getD (.arr []) = .arr ul)
    (huex : listHasId (.str u) ul = .ok true)
    (haex : listHasId (.str a) ul = .ok true)
    (hsort : sortAddsById (l ++ [Json.obj [("id", .str aid), ("group_id", .str g),
      ("user_id", .str u), ("added_by", .str a)]]) = .ok sorted)
    (hes : (Json.lookup db "eventStore").getD (.arr []) = .arr es)
    (hblocked : (Json.lookup skvs "blocked_by_id").getD (.obj []) = .obj bkvs)
    (hwait : Json.lookup bkvs aid = none)
    (hrun : addProject db env = .ok db1) :
    addProject db1 env = .ok db1 := by
  have hdictHas : Json.dictHas db "state" = true := by
    simp [Json.dictHas, hstate]
  have hkv1 : kvGet db "state" = .ok (.obj skvs) := by
    simp [kvGet, hstate]
  have hcontains : pyContains (.obj skvs) "adds" = .ok true := by
    simp [pyContains, Json.dictHas, hadds]
  have hpeq : Json.pyEq (.str "add") (.str "add") = true := by decide
  have hsub : pySubscript (.obj skvs) "adds" = .ok (.arr l) := by
    simp [pySubscript, hadds]
  have hgroups2 : pyGetD (.obj skvs) "groups" (.arr []) = .ok (.arr gl) := by
    simp [pyGetD, hgroups]
  have husers2 : pyGetD (.obj skvs) "users" (.arr []) = .ok (.arr ul) := by
    simp [pyGetD, husers]
  simp only [addProject, hdictHas, if_true, eq_self_iff_true, kvGet, hstate,
    bind, Except.bind, hcontains, Bool.not_true, Bool.false_eq_true, if_false,
    hdata, hdtype, hpeq, hid, hgid, huid, haby, hsg, htid, htg, htu, hta, hts,
    Bool.and_self, Bool.and_true, Bool.true_and, hsu, hsub, hdup, hgroups2,
    husers2, hgex, huex, haex, hsort, pure, Except.pure] at hrun
  have hesb : Json.lookup (Json.dictSet db "state"
      (Json.obj (Json.dictSet skvs "adds" (Json.arr sorted)))) "eventStore" =
      Json.lookup db "eventStore" :=
    Json.lookup_dictSet_ne _ _ _ _ (by decide)
  have hrun2 : addUnblock (Json.dictSet (Json.dictSet db "state"
      (Json.obj (Json.dictSet skvs "adds" (Json.arr sorted)))) "eventStore"
      (Json.arr (es ++ [env]))) (Json.str aid) = Except.ok db1 := by
    rcases hlook : Json.lookup db "eventStore" with _ | v
    · rw [hlook] at hes
      simp only [Option.getD] at hes
      obtain rfl : es = [] := by
        injection hes with h
        exact h.symm
      simp only [Json.dictHas, hesb, hlook, Option.isSome_none,
        Bool.false_eq_true, if_false, Json.lookup_dictSet_self,
        Json.dictSet_dictSet, List.nil_append] at hrun
      simpa using hrun
    · rw [hlook] at hes
      simp only [Option.getD] at hes
      subst hes
      simp only [Json.dictHas, hesb, hlook, Option.isSome_some,
        eq_self_iff_true, if_true] at hrun
      exact hrun
  clear hrun
  have hl5state : Json.lookup (Json.dictSet (Json.dictSet db "state"
      (Json.obj (Json.dictSet skvs "adds" (Json.arr sorted)))) "eventStore"
      (Json.arr (es ++ [env]))) "state" =
      some (Json.obj (Json.dictSet skvs "adds" (Json.arr sorted))) := by
    rw [Json.lookup_dictSet_ne _ _ _ _ (by decide)]
    exact Json.lookup_dictSet_self _ _ _
  have hlb : Json.lookup (Json.dictSet skvs "adds" (Json.arr sorted))
      "blocked_by_id" = Json.lookup skvs "blocked_by_id" :=
    Json.lookup_dictSet_ne _ _ _ _ (by decide)
  have hlr : Json.lookup (Json.dictSet skvs "adds" (Json.arr sorted))
      "ready_to_unblock" = Json.lookup skvs "ready_to_unblock" :=
    Json.lookup_dictSet_ne _ _ _ _ (by decide)
  simp only [addUnblock, bind, Except.bind, hl5state, Option.getD_some,
    pyGetD, hlb, hlr, hblocked, hwait, kvGet, List.foldlM_nil, pure,
    Except.pure, Except.ok.injEq] at hrun2
  subst hrun2
  set skvs4 := Json.dictSet (Json.dictSet skvs "adds" (Json.arr sorted))
    "ready_to_unblock" ((Json.lookup skvs "ready_to_unblock").getD (Json.obj []))
    with hsk4
  set Dv := Json.dictSet (Json.dictSet (Json.dictSet db "state"
    (Json.obj (Json.dictSet skvs "adds" (Json.arr sorted)))) "eventStore"
    (Json.arr (es ++ [env]))) "state" (Json.obj skvs4) with hDv
  have hDstate : Json.lookup Dv "state" = some (.obj skvs4) := by
    rw [hDv]
    exact Json.lookup_dictSet_self _ _ _
  have hs4adds : Json.lookup skvs4 "adds" = some (.arr sorted) := by
    rw [hsk4, Json.lookup_dictSet_ne _ _ _ _ (by decide)]
    exact Json.lookup_dictSet_self _ _ _
  have hdup2 : addsContainId (Json.str aid) sorted = Except.ok true := by
    refine addsContainId_true_of_mem (Json.str aid) sorted ?_
      [("id", Json.str aid), ("group_id", Json.str g), ("user_id", Json.str u),
       ("added_by", Json.str a)] ?_ ?_
    · intro x hx
      rcases List.mem_append.mp ((sortAddsById_mem _ _ hsort x).mp hx) with h5 | h5
      · exact addsContainId_false_all_obj _ _ hdup x h5
      · rw [List.mem_singleton] at h5
        exact ⟨_, h5⟩
    · exact (sortAddsById_mem _ _ hsort _).mpr
        (List.mem_append.mpr (Or.inr (List.mem_singleton.mpr rfl)))
    · simp [Json.lookup, Json.pyEq]
  have hdictHasD : Json.dictHas Dv "state" = true := by
    simp [Json.dictHas, hDstate]
  have hcontainsD : pyContains (.obj skvs4) "adds" = .ok true := by
    simp [pyContains, Json.dictHas, hs4adds]
  have hsubD : pySubscript (.obj skvs4) "adds" = .ok (.arr sorted) := by
    simp [pySubscript, hs4adds]
  simp only [addProject, hdictHasD, if_true, eq_self_iff_true, kvGet, hDstate,
    bind, Except.bind, hcontainsD, Bool.not_true, Bool.false_eq_true, if_false,
    hdata, hdtype, hpeq, hid, hgid, huid, haby, hsg, htid, htg, htu, hta, hts,
    Bool.and_self, Bool.and_true, Bool.true_and, hsu, hsubD, hdup2, pure,
    Except.pure]

/-- C3 (witness): a concrete accepted add (`c3wdb`, `c3wenv`): the first
projection records the add and the second returns the store unchanged. -/
theorem c3_projection_idempotence_witness :
    addProject c3wdb c3wenv = .ok c3wdb1 ∧
    addProject c3wdb1 c3wenv = .ok c3wdb1 := by
  constructor
  · rfl
  · exact c3_projection_idempotence c3wdb c3wdb1 c3wenv
      (Json.obj [("type", Json.str "add"), ("id", Json.str "a1"),
        ("group_id", Json.str "g1"), ("user_id", Json.str "u1"),
        ("added_by", Json.str "u2"), ("signature", Json.str "dummy_sig_abc")])
      [("adds", Json.arr []),
       ("groups", Json.arr [Json.obj [("id", Json.str "g1")]]),
       ("users", Json.arr [Json.obj [("id", Json.str "u1")],
         Json.obj [("id", Json.str "u2")]])]
      [] [] [Json.obj [("id", Json.str "g1")]]
      [Json.obj [("id", Json.str "u1")], Json.obj [("id", Json.str "u2")]]
      [Json.obj [("id", Json.str "a1"), ("group_id", Json.str "g1"),
        ("user_id", Json.str "u1"), ("added_by", Json.str "u2")]]
      [] "a1" "g1" "u1" "u2" "dummy_sig_abc"
      rfl rfl rfl rfl rfl rfl rfl rfl rfl rfl rfl rfl rfl rfl rfl rfl
      rfl rfl rfl rfl rfl rfl rfl rfl rfl rfl

/-! ## C5: `blocked.process_unblocked` -/

/-- C5 (counterexample): with marker `e1` pending and two events in the
event store, one invocation of the job replays only the envelope whose
`data.id` matches the marker — `_handled` records `[c5env1]`, not every
event of the store — refuting the replay-all claim (and there is no
`available_at_ms` ordering: markers are dict keys in insertion
order). -/
theorem c5_process_unblocked_counterexample :
    blocked_process_unblocked puRecorder (.obj []) c5db =
      .ok (c5out, .obj [("processed", .num 1)]) ∧
    Json.lookup c5out.view "_handled" = some (.arr [c5env1]) ∧
    Json.lookup c5db.view "eventStore" = some (.arr [c5env1, c5env2]) ∧
    Json.arr [c5env1] ≠ Json.arr [c5env1, c5env2] :=
  ⟨rfl, rfl, rfl, by decide⟩

/-- C5 (amended): the job takes marker ids from the `ready_to_unblock`
dict (insertion order, first 1000) — not markers ordered by
`available_at_ms` — and, per marker in its own per-marker
begin/commit (no store-wide transaction; here a plain store), deletes
the marker, prunes `blocked_by_id`, and replays exactly the first
event-store envelope whose `data.id` equals the marker id through the
dispatcher; events without a pending marker are never replayed.  With
one pending marker the run returns the dispatcher's output store and
`processed
= 1` whatever else the event store holds. -/
theorem c5_process_unblocked
    (hndl : Store → Json → Json → Except (PyErr × Store) Store)
    (params timeNow env : Json) (dkvs skvs skvs2 : List (String × Json))
    (evs : List Json) (eid : String) (db2 : Store)
    (htime : pyGetD params "time_now_ms" (.num 1000) = .ok timeNow)
    (hstate : Json.lookup dkvs "state" = some (.obj skvs))
    (hready : Json.lookup skvs "ready_to_unblock" =
      some (.obj [(eid, .bool true)]))
    (hblocked : Json.lookup skvs "blocked_by_id" = some (.obj []))
    (hes : Json.lookup dkvs "eventStore" = some (.arr evs))
    (hfind : puFindEnvelope eid evs = .ok (some env))
    (hh : hndl (Store.plain (Json.dictSet dkvs "state" (Json.obj (Json.dictSet
        (Json.dictSet skvs "ready_to_unblock" (Json.obj []))
        "blocked_by_id" (Json.obj []))))) env timeNow = .ok db2)
    (hstate2 : (Json.lookup db2.view "state").getD (.obj []) = .obj skvs2) :
    blocked_process_unblocked hndl params (Store.plain dkvs) =
      .ok (db2, .obj [("processed", .num 1)]) := by
  have hv : Store.view (Store.plain dkvs) = dkvs := rfl
  have hg1 : pyGetD (Json.obj skvs) "ready_to_unblock" (.obj []) =
      .ok (.obj [(eid, .bool true)]) := by
    simp [pyGetD, hready]
  have hg2 : pyGetD (Json.obj skvs) "blocked_by_id" (.obj []) =
      .ok (.obj []) := by
    simp [pyGetD, hblocked]
  have hg3 : pyGetD (Json.obj skvs2) "ready_to_unblock" (.obj []) =
      .ok ((Json.lookup skvs2 "ready_to_unblock").getD (.obj [])) := by
    simp [pyGetD]
  have hg4 : pyGetD (Json.obj skvs2) "blocked_by_id" (.obj []) =
      .ok ((Json.lookup skvs2 "blocked_by_id").getD (.obj [])) := by
    simp [pyGetD]
  simp only [blocked_process_unblocked, htime, Store.getD, hv, hstate,
    Option.getD_some, hg1, hg2, hg3, hg4, hes, bind, Except.bind, pure,
    Except.pure, Json.pyTruthy, List.isEmpty_cons, Bool.not_false,
    Bool.not_true, Bool.false_eq_true, if_false, eq_self_iff_true, if_true,
    List.map, List.take, List.foldlM_cons, List.foldlM_nil, puIter,
    Store.hasTransactions, Store.beginIf, puTryIter, Json.dictHas,
    Json.lookup, Option.isSome_some, Json.dictDel, puFilterBlocked,
    Store.set, hfind, hh, hstate2, List.length_cons, List.length_nil,
    Nat.cast_one]
  norm_num

/-- C5 (witness): the single-marker theorem applied to the concrete
store `c5db` with the recording dispatcher. -/
theorem c5_process_unblocked_witness :
    blocked_process_unblocked puRecorder (.obj [])
      (Store.plain [("state", Json.obj [("ready_to_unblock", Json.obj
        [("e1", Json.bool true)]), ("blocked_by_id", Json.obj [])]),
       ("eventStore", Json.arr [c5env1, c5env2])]) =
      .ok (c5out, .obj [("processed", .num 1)]) :=
  c5_process_unblocked puRecorder (.obj []) (.num 1000) c5env1
    [("state", Json.obj [("ready_to_unblock", Json.obj
      [("e1", Json.bool true)]), ("blocked_by_id", Json.obj [])]),
     ("eventStore", Json.arr [c5env1, c5env2])]
    [("ready_to_unblock", Json.obj [("e1", Json.bool true)]),
     ("blocked_by_id", Json.obj [])]
    [("ready_to_unblock", Json.obj []), ("blocked_by_id", Json.obj [])]
    [c5env1, c5env2] "e1" c5out
    rfl rfl rfl rfl rfl rfl rfl rfl
